import Mathlib

/-! 1key_x5: debounce sampler, press consumer, toggle and report state machines

A shallow embedding of `sources/main.c` and `sources/defines.h` of the one-key
V-USB keyboard.  Every C variable of type `unsigned char`/`uint8_t` is a `Nat`
holding a value below 256; the bitwise complement `~`, which C evaluates at
`int` width, is truncated back to 8 bits where the result is stored (`not8`).

The firmware has one interrupt source (timer 0 overflow) and one polling loop.
`get_key_press` runs between `cli()` and `sei()`, and the interrupt routine
touches only `key_state`, `key_press`, `ct0` and `ct1`, which the rest of the
loop never reads outside `get_key_press`; an execution is therefore a sequence
of whole operations (`Op`).
-/

namespace OneKey

/-! ## defines.h -/

def STATE_WAIT : Nat := 0
def STATE_SEND_KEY : Nat := 1
def STATE_RELEASE_KEY : Nat := 2

def KEY0 : Nat := 4
def LED0 : Nat := 3
def LED1 : Nat := 0

/-! ## Constants of headers that are not among the sources -/

/-- Modelled from the spec: `keycodes.h` is missing; the configured modifier is
the non-zero "left shift" bit of the HID modifier byte (bit 1). -/
def MOD_SHIFT_LEFT : Nat := 1 <<< 1

/-- Modelled from the spec: `keycodes.h` is missing; the configured key is the
non-zero HID usage of the letter `w` (26). -/
def KEY_W : Nat := 26

/-- Modelled from the spec: `keycodes.h` is missing; the flag of the host LED
byte that drives the status indicator is the HID "Num Lock" LED (bit 0). -/
def NUM_LOCK : Nat := 1

/-- Modelled from the spec: `usbdrv.h` is missing; mask of the request-type
field of `bmRequestType` (USB 2.0, bits 5 and 6). -/
def USBRQ_TYPE_MASK : Nat := 0x60

/-- Modelled from the spec: `usbdrv.h` is missing; request type "class". -/
def USBRQ_TYPE_CLASS : Nat := 1 <<< 5

/-- Modelled from the spec: `usbdrv.h` is missing; HID class request GET_REPORT. -/
def USBRQ_HID_GET_REPORT : Nat := 0x01

/-- Modelled from the spec: `usbdrv.h` is missing; HID class request GET_IDLE. -/
def USBRQ_HID_GET_IDLE : Nat := 0x02

/-- Modelled from the spec: `usbdrv.h` is missing; HID class request SET_REPORT. -/
def USBRQ_HID_SET_REPORT : Nat := 0x09

/-- Modelled from the spec: `usbdrv.h` is missing; HID class request SET_IDLE. -/
def USBRQ_HID_SET_IDLE : Nat := 0x0a

/-- Modelled from the spec: `usbdrv.h` is missing; the return value that asks
the transport to deliver the data stage through `usbFunctionWrite`
(`(usbMsgLen_t)-1` in an 8-bit `usbMsgLen_t`). -/
def USB_NO_MSG : Nat := 255

/-! ## Data model -/

/-- The record `keyboard_report_t`; `keycode0 .. keycode5` are `keycode[0..5]`. -/
structure keyboard_report_t where
  modifier : Nat
  reserved : Nat
  keycode0 : Nat
  keycode1 : Nat
  keycode2 : Nat
  keycode3 : Nat
  keycode4 : Nat
  keycode5 : Nat
  deriving DecidableEq

/-- The object `usbMsgPtr` points at after `usbFunctionSetup`. -/
inductive MsgPtr where
  | unset
  | keyboard_report
  | idleRate
  deriving DecidableEq

/-- A setup packet `usbRequest_t` as `usbFunctionSetup` reads it. -/
structure usbRequest_t where
  bmRequestType : Nat
  bRequest : Nat
  wValue_bytes0 : Nat
  wValue_bytes1 : Nat
  wIndex : Nat
  wLength : Nat
  deriving DecidableEq

/-- The global variables of `main.c`, the port register `PORTB` (which is both
`LED_PORT` and `KEY_PORT`), and `sent`, the reports handed to the transport by
`usbSetInterrupt`, oldest first. -/
structure State where
  keyboard_report : keyboard_report_t
  LED_state : Nat
  idleRate : Nat
  key_state : Nat
  key_press : Nat
  ct0 : Nat
  ct1 : Nat
  run_state : Nat
  state : Nat
  PORTB : Nat
  usbMsgPtr : MsgPtr
  sent : List (List Nat)
  deriving DecidableEq

/-- The 8-bit complement: `~x` stored into an `unsigned char`. -/
def not8 (x : Nat) : Nat := 255 - x % 256

/-- The `sizeof(keyboard_report)` = 8 bytes of the report, in memory order. -/
def reportBytes (r : keyboard_report_t) : List Nat :=
  [r.modifier, r.reserved, r.keycode0, r.keycode1, r.keycode2, r.keycode3,
   r.keycode4, r.keycode5]

/-! ## USB HID routines -/

/-- The function `usbFunctionSetup`: the new state and the returned length. -/
def usbFunctionSetup (s : State) (rq : usbRequest_t) : State × Nat :=
  if rq.bmRequestType &&& USBRQ_TYPE_MASK = USBRQ_TYPE_CLASS then
    if rq.bRequest = USBRQ_HID_GET_REPORT then
      ({ s with
          usbMsgPtr := MsgPtr.keyboard_report
          keyboard_report := { s.keyboard_report with modifier := 0, keycode0 := 0 } },
        8)
    else if rq.bRequest = USBRQ_HID_SET_REPORT then
      (s, if rq.wLength = 1 then USB_NO_MSG else 0)
    else if rq.bRequest = USBRQ_HID_GET_IDLE then
      ({ s with usbMsgPtr := MsgPtr.idleRate }, 1)
    else if rq.bRequest = USBRQ_HID_SET_IDLE then
      ({ s with idleRate := rq.wValue_bytes1 }, 0)
    else (s, 0)
  else (s, 0)

/-- The function `usbFunctionWrite(data, len)`: the new state and the return
value.  `data[0]` is the first byte of the buffer (the transport calls with
`len ≥ 1`). -/
def usbFunctionWrite (s : State) (data : List Nat) : State × Nat :=
  let d0 := data.headD 0 % 256
  if d0 = s.LED_state then (s, 1)
  else
    let s := { s with LED_state := d0 }
    if s.LED_state &&& NUM_LOCK ≠ 0 then
      ({ s with PORTB := s.PORTB ||| (1 <<< LED1) }, 1)
    else
      ({ s with PORTB := s.PORTB &&& not8 (1 <<< LED1) }, 1)

/-- The function `buildReport(modifier, send_key)`. -/
def buildReport (s : State) (modifier send_key : Nat) : State :=
  let s := { s with keyboard_report := { s.keyboard_report with modifier := modifier } }
  if send_key ≠ 0 then
    { s with keyboard_report := { s.keyboard_report with keycode0 := send_key } }
  else
    { s with keyboard_report := { s.keyboard_report with keycode0 := 0 } }

/-- The transport call `usbSetInterrupt(&keyboard_report, sizeof(keyboard_report))`:
the eight bytes of the report are copied out. -/
def usbSetInterrupt (s : State) : State :=
  { s with sent := s.sent ++ [reportBytes s.keyboard_report] }

/-! ## Debouncing -/

/-- The interrupt routine `ISR(TIMER0_OVF_vect)`, reading `KEY_PIN`. -/
def TIMER0_OVF_vect (s : State) (KEY_PIN : Nat) : State :=
  let i := (s.key_state ^^^ not8 KEY_PIN) % 256
  let ct0 := not8 (s.ct0 &&& i)
  let ct1 := ct0 ^^^ (s.ct1 &&& i)
  let i := i &&& (ct0 &&& ct1)
  let key_state := s.key_state ^^^ i
  let key_press := s.key_press ||| (key_state &&& i)
  { s with key_state := key_state, key_press := key_press, ct0 := ct0, ct1 := ct1 }

/-- The function `get_key_press(key_mask)`: the new state and the returned mask. -/
def get_key_press (s : State) (key_mask : Nat) : State × Nat :=
  let key_mask := key_mask &&& s.key_press
  ({ s with key_press := s.key_press ^^^ key_mask }, key_mask)

/-- The function `debounce()`. -/
def debounce (s : State) : State :=
  let r := get_key_press s (1 <<< KEY0)
  let s := r.1
  if r.2 ≠ 0 then
    if s.run_state ≠ 0 then
      { s with
          run_state := 0
          PORTB := s.PORTB &&& not8 (1 <<< LED0)
          state := STATE_RELEASE_KEY }
    else
      { s with
          run_state := 1
          PORTB := s.PORTB ||| (1 <<< LED0)
          state := STATE_SEND_KEY }
  else s

/-! ## Main code -/

/-- The `if` statement of the main loop (the transmission gate), with the value
`usbInterruptIsReady()` returned. -/
def gate (s : State) (usbInterruptIsReady : Bool) : State :=
  if usbInterruptIsReady = true ∧ s.state ≠ STATE_WAIT ∧ s.LED_state ≠ 0xff then
    let s :=
      if s.state = STATE_SEND_KEY then buildReport s MOD_SHIFT_LEFT KEY_W
      else if s.state = STATE_RELEASE_KEY then
        { buildReport s 0 0 with state := STATE_WAIT }
      else { s with state := STATE_WAIT }
    usbSetInterrupt s
  else s

/-- One iteration of the main loop after `usbPoll()`: `debounce()`, then the gate. -/
def loop_body (s : State) (usbInterruptIsReady : Bool) : State :=
  gate (debounce s) usbInterruptIsReady

/-- The state when `main` reaches its loop: the initialised globals, the report
cleared, the pull-up of `KEY0` switched on in `PORTB` (whose reset value is 0)
and `key_state = ~KEY_PIN`. -/
def boot (KEY_PIN : Nat) : State :=
  { keyboard_report :=
      { modifier := 0, reserved := 0, keycode0 := 0, keycode1 := 0, keycode2 := 0,
        keycode3 := 0, keycode4 := 0, keycode5 := 0 }
    LED_state := 0xff
    idleRate := 0
    key_state := not8 KEY_PIN
    key_press := 0
    ct0 := 0xFF
    ct1 := 0xFF
    run_state := 0
    state := STATE_WAIT
    PORTB := 0 ||| (1 <<< KEY0)
    usbMsgPtr := MsgPtr.unset
    sent := [] }

/-! ## Executions -/

/-- One operation of an execution. -/
inductive Op where
  | tick (KEY_PIN : Nat)
  | debounce
  | gate (usbInterruptIsReady : Bool)
  | usbWrite (data : List Nat)
  | usbSetup (rq : usbRequest_t)
  deriving DecidableEq

/-- The effect of one operation on the state. -/
def step (s : State) : Op → State
  | Op.tick p => TIMER0_OVF_vect s p
  | Op.debounce => debounce s
  | Op.gate r => gate s r
  | Op.usbWrite d => (usbFunctionWrite s d).1
  | Op.usbSetup rq => (usbFunctionSetup s rq).1

/-- The state after a sequence of operations. -/
def run (s : State) (ops : List Op) : State := ops.foldl step s

/-- The state after a sequence of timer ticks with the given pin readings. -/
def ticks (s : State) (pins : List Nat) : State := pins.foldl TIMER0_OVF_vect s

/-- A state the firmware can be in: reached from boot by some execution. -/
def Reachable (s : State) : Prop := ∃ pin ops, run (boot pin) ops = s

/-! ## One line of the debounce sampler -/

/-- The bits of one input line `b`: debounced state, pending press and the two
counter bits. -/
structure Line where
  ks : Bool
  kp : Bool
  c0 : Bool
  c1 : Bool
  deriving DecidableEq

/-- Line `b` of a state. -/
def lineOf (s : State) (b : Nat) : Line :=
  { ks := s.key_state.testBit b, kp := s.key_press.testBit b,
    c0 := s.ct0.testBit b, c1 := s.ct1.testBit b }

/-- Whether the raw sample `p` of line `b` differs from the debounced level
`ks` (the debounced state is inverted: 1 = pressed = pin low). -/
def differs (ks : Bool) (p : Bool) : Bool := xor ks (!p)

/-- The interrupt routine on one line, given whether the sample differs. -/
def lineTick (l : Line) (d : Bool) : Line :=
  let c0 := !(l.c0 && d)
  let c1 := xor c0 (l.c1 && d)
  let i := d && (c0 && c1)
  let ks := xor l.ks i
  { ks := ks, kp := l.kp || (ks && i), c0 := c0, c1 := c1 }

/-- The number of consecutive differing samples a line has counted. -/
def Line.count (l : Line) : Nat :=
  match l.c0, l.c1 with
  | true, true => 0
  | false, true => 1
  | true, false => 2
  | false, false => 3

/-! ## Sampler and consumer interleavings -/

/-- An operation of the sampler/consumer pair: a timer tick with its pin
reading, or a call `get_key_press(1 << KEY0)`. -/
inductive KOp where
  | tick (KEY_PIN : Nat)
  | getKey
  deriving DecidableEq

/-- The effect of a sampler/consumer operation on the state. -/
def kstep (s : State) : KOp → State
  | KOp.tick p => TIMER0_OVF_vect s p
  | KOp.getKey => (get_key_press s (1 <<< KEY0)).1

/-- The number of `get_key_press(1 << KEY0)` calls of the sequence that return
a non-zero value. -/
def deliveries : State → List KOp → Nat
  | _, [] => 0
  | s, KOp.tick p :: ops => deliveries (kstep s (KOp.tick p)) ops
  | s, KOp.getKey :: ops =>
      (if (get_key_press s (1 <<< KEY0)).2 ≠ 0 then 1 else 0)
        + deliveries (kstep s KOp.getKey) ops

/-- The number of ticks of the sequence in which bit `KEY0` of `key_state` goes
from released (0) to pressed (1). -/
def pressEdges : State → List KOp → Nat
  | _, [] => 0
  | s, KOp.tick p :: ops =>
      (if s.key_state.testBit KEY0 = false ∧
          (TIMER0_OVF_vect s p).key_state.testBit KEY0 = true then 1 else 0)
        + pressEdges (kstep s (KOp.tick p)) ops
  | s, KOp.getKey :: ops => pressEdges (kstep s KOp.getKey) ops

/-- The number of ticks of the sequence in which bit `KEY0` of `key_state` goes
from released (0) to pressed (1) while no press of `KEY0` is pending. -/
def freshPressEdges : State → List KOp → Nat
  | _, [] => 0
  | s, KOp.tick p :: ops =>
      (if s.key_state.testBit KEY0 = false ∧
          (TIMER0_OVF_vect s p).key_state.testBit KEY0 = true ∧
          s.key_press.testBit KEY0 = false then 1 else 0)
        + freshPressEdges (kstep s (KOp.tick p)) ops
  | s, KOp.getKey :: ops => freshPressEdges (kstep s KOp.getKey) ops

/-- Two debounced presses of `KEY0` with a debounced release in between and no
consumer call until the end. -/
def twoPresses : List KOp :=
  List.replicate 4 (KOp.tick 0x00) ++ List.replicate 4 (KOp.tick 0x10) ++
    List.replicate 4 (KOp.tick 0x00) ++ [KOp.getKey]

/-- No tick of the sequence takes bit `KEY0` of `key_state` from released (0)
to pressed (1). -/
def pressEdgeFree : State → List Op → Prop
  | _, [] => True
  | s, Op.tick p :: ops =>
      ¬ (s.key_state.testBit KEY0 = false ∧
          (TIMER0_OVF_vect s p).key_state.testBit KEY0 = true) ∧
        pressEdgeFree (step s (Op.tick p)) ops
  | s, op :: ops => pressEdgeFree (step s op) ops

/-- The state after a sequence of gate evaluations with the given transport
readiness values. -/
def gates (s : State) (readys : List Bool) : State := readys.foldl gate s

/-- No `debounce()` call of the sequence consumes a press event: each one gets
0 from `get_key_press(1 << KEY0)`. -/
def consumeFree : State → List Op → Prop
  | _, [] => True
  | s, Op.debounce :: ops =>
      (get_key_press s (1 <<< KEY0)).2 = 0 ∧ consumeFree (step s Op.debounce) ops
  | s, op :: ops => consumeFree (step s op) ops

/-- The properties every reachable state has: the report bytes that no routine
writes are zero, and `run_state` and `state` agree. -/
def Inv (s : State) : Prop :=
  s.keyboard_report.reserved = 0 ∧ s.keyboard_report.keycode1 = 0 ∧
  s.keyboard_report.keycode2 = 0 ∧ s.keyboard_report.keycode3 = 0 ∧
  s.keyboard_report.keycode4 = 0 ∧ s.keyboard_report.keycode5 = 0 ∧
  ((s.run_state = 0 ∧ (s.state = STATE_WAIT ∨ s.state = STATE_RELEASE_KEY)) ∨
   (s.run_state = 1 ∧ s.state = STATE_SEND_KEY))

/-- Several ticks on one line, given the raw samples of the line. -/
def lineTicks (l : Line) (ps : List Bool) : Line :=
  ps.foldl (fun l p => lineTick l (differs l.ks p)) l

/-- The Active state reached from boot (button released) once the host has sent
its LED byte, the button was held for four ticks, `debounce()` consumed the
press and the gate sent the key report; the button is still held. -/
def activeHeld : State :=
  run (boot 0x10)
    [Op.usbWrite [0], Op.tick 0, Op.tick 0, Op.tick 0, Op.tick 0, Op.debounce, Op.gate true]

/-- The boot state with the button released, after the host has sent the LED
byte 0 (so that `LED_state` is known). -/
def bootKnown : State := (usbFunctionWrite (boot 0x10) [0]).1

/-- The entries into `STATE_SEND_KEY` and `STATE_RELEASE_KEY` of an execution,
in order: the new value of `state` at each operation that changes `state` to one
of the two. -/
def entries : State → List Op → List Nat
  | _, [] => []
  | s, op :: ops =>
      (if (step s op).state ≠ s.state ∧
          ((step s op).state = STATE_SEND_KEY ∨ (step s op).state = STATE_RELEASE_KEY)
        then [(step s op).state] else [])
        ++ entries (step s op) ops

/-- The list `a, b, a, b, ...` of length `n`. -/
def alternation (a b : Nat) : Nat → List Nat
  | 0 => []
  | n + 1 => a :: alternation b a n

/-- The number of gate evaluations of the sequence that pass: made with the
transport ready, `state != STATE_WAIT` and `LED_state != 0xff`. -/
def openGates : State → List Op → Nat
  | _, [] => 0
  | s, Op.gate r :: ops =>
      (if r = true ∧ s.state ≠ STATE_WAIT ∧ s.LED_state ≠ 0xff then 1 else 0)
        + openGates (step s (Op.gate r)) ops
  | s, op :: ops => openGates (step s op) ops

/-- After every operation of the sequence `state` has the value `phase`. -/
def phaseHolds (phase : Nat) : State → List Op → Bool
  | _, [] => true
  | s, op :: ops => decide ((step s op).state = phase) && phaseHolds phase (step s op) ops

/-- An execution from boot in which the host never sends its LED state: a
debounced press, a main-loop iteration, a debounced release and a second
debounced press. -/
def pressTwiceUnknown : List Op :=
  [Op.tick 0, Op.tick 0, Op.tick 0, Op.tick 0, Op.debounce, Op.gate true,
   Op.tick 0x10, Op.tick 0x10, Op.tick 0x10, Op.tick 0x10,
   Op.tick 0, Op.tick 0, Op.tick 0, Op.tick 0]

/-- A state with an unrecognised `state` value, the host LED state known. -/
def strayPhase : State := { bootKnown with state := 3 }

/-- The port bits of every reachable state: the `LED0` bit follows `run_state`,
and once `LED_state` has left the value `0xff` the `LED1` bit shows its
`NUM_LOCK` flag. -/
def InvPort (s : State) : Prop :=
  (s.PORTB.testBit LED0 = true ↔ s.run_state = 1) ∧
  (s.LED_state = 0xff ∨ (s.PORTB.testBit LED1 = true ↔ s.LED_state &&& NUM_LOCK ≠ 0))

/-- A class request GET_REPORT as the host sends it. -/
def getReportRequest : usbRequest_t :=
  { bmRequestType := 0xA1, bRequest := USBRQ_HID_GET_REPORT, wValue_bytes0 := 0,
    wValue_bytes1 := 1, wIndex := 0, wLength := 8 }

/-- The first byte of the most recent `usbFunctionWrite` call after one more
operation (`data[0]` as `usbFunctionWrite` reads it). -/
def ledByteAfter (acc : Option Nat) : Op → Option Nat
  | Op.usbWrite d => some (d.headD 0 % 256)
  | _ => acc

/-- The first byte of the most recent `usbFunctionWrite` call of the sequence,
if there is one. -/
def lastLedByte (ops : List Op) : Option Nat := ops.foldl ledByteAfter none

/-- The sampler tick as the specification writes it down: `changed =
debounced_state XOR NOT raw_level`, `ct0 = NOT (ct0 AND changed)`,
`ct1 = changed XOR (ct1 AND changed)`, a line is accepted where
`changed AND ct0 AND ct1` is set, and every accepted bit is flipped in the
debounced state and ORed into the pending mask. -/
def specTick (s : State) (raw_level : Nat) : State :=
  let changed := s.key_state ^^^ not8 raw_level
  let ct0 := not8 (s.ct0 &&& changed)
  let ct1 := changed ^^^ (s.ct1 &&& changed)
  let accepted := changed &&& ct0 &&& ct1
  { s with
      key_state := s.key_state ^^^ accepted
      key_press := s.key_press ||| accepted
      ct0 := ct0
      ct1 := ct1 }

/-- The formulas of the specification with the second counter taken from the new
first counter, `ct1 = ct0 XOR (ct1 AND changed)`, and with the pending mask
receiving the accepted bits whose new debounced state is 1. -/
def amendedTick (s : State) (raw_level : Nat) : State :=
  let changed := s.key_state ^^^ not8 raw_level
  let ct0 := not8 (s.ct0 &&& changed)
  let ct1 := ct0 ^^^ (s.ct1 &&& changed)
  let accepted := changed &&& ct0 &&& ct1
  let debounced := s.key_state ^^^ accepted
  { s with
      key_state := debounced
      key_press := s.key_press ||| (debounced &&& accepted)
      ct0 := ct0
      ct1 := ct1 }

/-! ## Lemmas: bit level -/

theorem not8_testBit (x b : Nat) :
    (not8 x).testBit b = (decide (b < 8) && !x.testBit b) := by
  have h : x % 256 < 2 ^ 8 := Nat.mod_lt _ (by norm_num)
  have e : not8 x = 2 ^ 8 - (x % 256 + 1) := by unfold not8; omega
  rw [e, Nat.testBit_two_pow_sub_succ h]
  have : (256 : Nat) = 2 ^ 8 := by norm_num
  rw [this, Nat.testBit_mod_two_pow]
  cases decide (b < 8) <;> simp

theorem not8_lt (x : Nat) : not8 x < 256 := by unfold not8; omega

theorem mod256_testBit (x b : Nat) :
    (x % 256).testBit b = (decide (b < 8) && x.testBit b) := by
  have : (256 : Nat) = 2 ^ 8 := by norm_num
  rw [this, Nat.testBit_mod_two_pow]

theorem lineOf_tick (s : State) (p b : Nat) (hb : b < 8) :
    lineOf (TIMER0_OVF_vect s p) b
      = lineTick (lineOf s b) (differs (s.key_state.testBit b) (p.testBit b)) := by
  simp only [lineOf, TIMER0_OVF_vect, lineTick, differs, Nat.testBit_xor, Nat.testBit_and,
    Nat.testBit_or, not8_testBit, mod256_testBit, hb, decide_True, Bool.true_and]

theorem tick_high (s : State) (p b : Nat) (hb : 8 ≤ b) :
    (TIMER0_OVF_vect s p).key_state.testBit b = s.key_state.testBit b ∧
    (TIMER0_OVF_vect s p).key_press.testBit b = s.key_press.testBit b := by
  have h : decide (b < 8) = false := by simp; omega
  simp only [TIMER0_OVF_vect, Nat.testBit_xor, Nat.testBit_and,
    Nat.testBit_or, not8_testBit, mod256_testBit, h, Bool.false_and, Bool.and_false,
    Bool.xor_false, Bool.or_false, and_self]

/-! ## Lemmas: one line over several ticks -/

theorem lineOf_ks (s : State) (b : Nat) : (lineOf s b).ks = s.key_state.testBit b := rfl

theorem lineOf_kp (s : State) (b : Nat) : (lineOf s b).kp = s.key_press.testBit b := rfl

theorem lineTick_same (l : Line) :
    (lineTick l false).ks = l.ks ∧ (lineTick l false).kp = l.kp ∧
    (lineTick l false).count = 0 := by
  cases l with
  | mk ks kp c0 c1 => cases ks <;> cases kp <;> cases c0 <;> cases c1 <;> decide

theorem lineTick_count (l : Line) (h : l.count < 3) :
    (lineTick l true).ks = l.ks ∧ (lineTick l true).kp = l.kp ∧
    (lineTick l true).count = l.count + 1 := by
  cases l with
  | mk ks kp c0 c1 =>
    cases ks <;> cases kp <;> cases c0 <;> cases c1 <;>
      first | decide | exact absurd h (by decide)

theorem Line.count_le (l : Line) : l.count ≤ 3 := by
  cases l with
  | mk ks kp c0 c1 => cases ks <;> cases kp <;> cases c0 <;> cases c1 <;> decide

theorem ticks_cons (s : State) (p : Nat) (ps : List Nat) :
    ticks s (p :: ps) = ticks (TIMER0_OVF_vect s p) ps := rfl

theorem ticks_append (s : State) (ps qs : List Nat) :
    ticks s (ps ++ qs) = ticks (ticks s ps) qs := by
  simp [ticks, List.foldl_append]

/-- As long as the differing samples never complete a run of four, counting the
ones already seen, a line keeps its debounced state and its pending bit. -/
theorem line_quiet (b : Nat) (hb : b < 8) (pins : List Nat) :
    ∀ s : State,
      ¬ (List.replicate 4 true <:+:
          List.replicate (lineOf s b).count true ++
            pins.map (fun p => differs (s.key_state.testBit b) (p.testBit b))) →
      (ticks s pins).key_state.testBit b = s.key_state.testBit b ∧
      (ticks s pins).key_press.testBit b = s.key_press.testBit b := by
  induction pins with
  | nil => intro s _; exact ⟨rfl, rfl⟩
  | cons p ps ih =>
    intro s h
    have hl := lineOf_tick s p b hb
    rw [ticks_cons]
    cases hd : differs (s.key_state.testBit b) (p.testBit b) with
    | false =>
      rw [hd] at hl
      obtain ⟨e1', e2', e3⟩ := lineTick_same (lineOf s b)
      rw [← hl] at e1' e2' e3
      have e1 : (TIMER0_OVF_vect s p).key_state.testBit b = s.key_state.testBit b := e1'
      have e2 : (TIMER0_OVF_vect s p).key_press.testBit b = s.key_press.testBit b := e2'
      have := ih (TIMER0_OVF_vect s p) (by
        rw [e3, e1]
        intro hin
        apply h
        simp only [List.map_cons, hd]
        refine List.IsInfix.trans hin ?_
        simp only [List.replicate_zero, List.nil_append]
        exact ⟨List.replicate (lineOf s b).count true ++ [false], [], by simp⟩)
      rw [e1, e2] at this
      exact this
    | true =>
      rw [hd] at hl
      have hc : (lineOf s b).count < 3 := by
        by_contra hge
        have h3 : (lineOf s b).count = 3 := by
          have := Line.count_le (lineOf s b)
          omega
        apply h
        simp only [List.map_cons, hd, h3]
        exact ⟨[], List.map (fun p => differs (s.key_state.testBit b) (p.testBit b)) ps,
          by simp [List.replicate]⟩
      obtain ⟨e1', e2', e3⟩ := lineTick_count (lineOf s b) hc
      rw [← hl] at e1' e2' e3
      have e1 : (TIMER0_OVF_vect s p).key_state.testBit b = s.key_state.testBit b := e1'
      have e2 : (TIMER0_OVF_vect s p).key_press.testBit b = s.key_press.testBit b := e2'
      have := ih (TIMER0_OVF_vect s p) (by
        rw [e3, e1]
        intro hin
        apply h
        simp only [List.map_cons, hd]
        have e : List.replicate ((lineOf s b).count + 1) true
            = List.replicate (lineOf s b).count true ++ [true] := by
          rw [List.replicate_succ']
        rw [e, List.append_assoc] at hin
        exact hin)
      rw [e1, e2] at this
      exact this

theorem count_rest (s : State) (b : Nat)
    (h0 : s.ct0.testBit b = true) (h1 : s.ct1.testBit b = true) :
    (lineOf s b).count = 0 := by
  simp [lineOf, Line.count, h0, h1]

/-- C1 (glitch rejection): for a line `b` whose counters are at rest and a
sequence of raw samples that never contains 4 consecutive samples differing from
the debounced level of `b`, bit `b` of `key_state` and bit `b` of `key_press`
are the same after every tick of the sequence as before it. -/
theorem glitch_rejection (s : State) (b : Nat) (hb : b < 8)
    (h0 : s.ct0.testBit b = true) (h1 : s.ct1.testBit b = true) (pins : List Nat)
    (hrun : ¬ (List.replicate 4 true <:+:
      pins.map (fun p => differs (s.key_state.testBit b) (p.testBit b))))
    (n : Nat) :
    (ticks s (pins.take n)).key_state.testBit b = s.key_state.testBit b ∧
    (ticks s (pins.take n)).key_press.testBit b = s.key_press.testBit b := by
  apply line_quiet b hb
  rw [count_rest s b h0 h1]
  intro hin
  apply hrun
  simp only [List.replicate_zero, List.nil_append, List.map_take] at hin
  exact List.IsInfix.trans hin (List.IsPrefix.isInfix (List.take_prefix _ _))

/-- Witness of `glitch_rejection`: from boot with the button released, a pulse
of three "pressed" samples that reverts, followed by a one-tick glitch. -/
theorem glitch_rejection_witness :
    (ticks (boot 0x10) ([0x10, 0x00, 0x00, 0x00, 0x10, 0x00, 0x10].take 7)).key_state.testBit 4
        = (boot 0x10).key_state.testBit 4 ∧
    (ticks (boot 0x10) ([0x10, 0x00, 0x00, 0x00, 0x10, 0x00, 0x10].take 7)).key_press.testBit 4
        = (boot 0x10).key_press.testBit 4 :=
  glitch_rejection (boot 0x10) 4 (by decide) (by decide) (by decide)
    [0x10, 0x00, 0x00, 0x00, 0x10, 0x00, 0x10] (by decide) 7

/-! ## The press consumer -/

theorem testBit_high_of_lt (p b : Nat) (hp : p < 256) (hb : ¬ b < 8) :
    p.testBit b = false := by
  apply Nat.testBit_lt_two_pow
  calc p < 2 ^ 8 := by simpa using hp
    _ ≤ 2 ^ b := Nat.pow_le_pow_right (by norm_num) (by omega)

theorem xor_and_eq_and_not8 (p m : Nat) (hp : p < 256) :
    p ^^^ (m &&& p) = p &&& not8 m := by
  apply Nat.eq_of_testBit_eq
  intro b
  simp only [Nat.testBit_xor, Nat.testBit_and, not8_testBit]
  by_cases hb : b < 8
  · simp only [hb, decide_True, Bool.true_and]
    cases p.testBit b <;> cases m.testBit b <;> rfl
  · simp only [hb, decide_False, Bool.false_and, Bool.and_false,
      testBit_high_of_lt p b hp hb, Bool.xor_false]

/-- C3 (read-and-clear contract of `get_key_press`): for an 8-bit `key_press`
value and any mask `m`, the call returns `m AND key_press` and leaves
`key_press XOR (m AND key_press) = key_press AND NOT m`; the returned bits lie
inside `m`, pending bits outside `m` are untouched, nothing but `key_press` is
modified, and an immediately repeated call returns 0. -/
theorem get_key_press_contract (s : State) (m : Nat) (hp : s.key_press < 256) :
    (get_key_press s m).2 = m &&& s.key_press ∧
    (get_key_press s m).1.key_press = s.key_press ^^^ (m &&& s.key_press) ∧
    (get_key_press s m).1.key_press = s.key_press &&& not8 m ∧
    (∀ b, (get_key_press s m).2.testBit b = true → m.testBit b = true) ∧
    (∀ b, m.testBit b = false →
      (get_key_press s m).1.key_press.testBit b = s.key_press.testBit b) ∧
    (get_key_press s m).1 = { s with key_press := (get_key_press s m).1.key_press } ∧
    (get_key_press s m).1.key_state = s.key_state ∧
    (get_key_press s m).1.ct0 = s.ct0 ∧
    (get_key_press s m).1.ct1 = s.ct1 ∧
    (get_key_press (get_key_press s m).1 m).2 = 0 := by
  refine ⟨rfl, rfl, xor_and_eq_and_not8 _ _ hp, ?_, ?_, rfl, rfl, rfl, rfl, ?_⟩
  · intro b h
    simp only [get_key_press, Nat.testBit_and, Bool.and_eq_true] at h
    exact h.1
  · intro b h
    simp only [get_key_press, Nat.testBit_xor, Nat.testBit_and, h, Bool.false_and,
      Bool.xor_false]
  · apply Nat.eq_of_testBit_eq
    intro b
    simp only [get_key_press, Nat.testBit_xor, Nat.testBit_and, Nat.zero_testBit]
    cases s.key_press.testBit b <;> cases m.testBit b <;> rfl

/-- Witness of `get_key_press_contract`: two lines pending, the mask of `KEY0`. -/
theorem get_key_press_contract_witness :
    (get_key_press { boot 0x10 with key_press := 0x11 } 0x10).2
      = 0x10 &&& ({ boot 0x10 with key_press := 0x11 } : State).key_press ∧
    (get_key_press (get_key_press { boot 0x10 with key_press := 0x11 } 0x10).1 0x10).2 = 0 :=
  have h := get_key_press_contract { boot 0x10 with key_press := 0x11 } 0x10 (by decide)
  ⟨h.1, h.2.2.2.2.2.2.2.2.2⟩

/-! ## Delivery of press events -/

theorem lineTick_kp (l : Line) (d : Bool) :
    (lineTick l d).kp = (l.kp || (!l.ks && (lineTick l d).ks)) := by
  cases l with
  | mk ks kp c0 c1 =>
    cases ks <;> cases kp <;> cases c0 <;> cases c1 <;> cases d <;> rfl

theorem tick_key_press_bit (s : State) (p b : Nat) (hb : b < 8) :
    (TIMER0_OVF_vect s p).key_press.testBit b
      = (s.key_press.testBit b ||
          (!s.key_state.testBit b && (TIMER0_OVF_vect s p).key_state.testBit b)) := by
  have h := lineOf_tick s p b hb
  have hk := lineTick_kp (lineOf s b) (differs (s.key_state.testBit b) (p.testBit b))
  rw [← h] at hk
  exact hk

theorem key0_mask_testBit (b : Nat) : (1 <<< KEY0).testBit b = decide (KEY0 = b) := by
  have : (1 <<< KEY0 : Nat) = 2 ^ KEY0 := by simp [Nat.shiftLeft_eq]
  rw [this, Nat.testBit_two_pow]

theorem key0_and_eq_zero_iff (p : Nat) :
    (1 <<< KEY0) &&& p = 0 ↔ p.testBit KEY0 = false := by
  constructor
  · intro h
    have := congrArg (fun x => Nat.testBit x KEY0) h
    simpa [key0_mask_testBit] using this
  · intro h
    apply Nat.eq_of_testBit_eq
    intro b
    rw [Nat.testBit_and, key0_mask_testBit, Nat.zero_testBit]
    by_cases e : KEY0 = b
    · subst e; simp [h]
    · simp [e]

theorem get_key_press_pending (s : State) :
    (get_key_press s (1 <<< KEY0)).1.key_press.testBit KEY0 = false := by
  simp only [get_key_press, Nat.testBit_xor, Nat.testBit_and, key0_mask_testBit,
    decide_True, Bool.true_and, Bool.xor_self]

/-- With a consumer call at the end, the calls that return non-zero are the
fresh press edges plus the press that was pending at the start. -/
theorem deliveries_eq (ops : List KOp) :
    ∀ s : State,
      deliveries s (ops ++ [KOp.getKey])
        = freshPressEdges s (ops ++ [KOp.getKey])
            + (if s.key_press.testBit KEY0 = true then 1 else 0) := by
  induction ops with
  | nil =>
    intro s
    simp only [List.nil_append, deliveries, freshPressEdges, ne_eq, key0_and_eq_zero_iff,
      get_key_press, Bool.not_eq_false, Nat.add_zero, Nat.zero_add]
  | cons op ops ih =>
    intro s
    cases op with
    | tick p =>
      simp only [List.cons_append, deliveries, freshPressEdges, kstep, List.append_eq]
      rw [ih (TIMER0_OVF_vect s p), tick_key_press_bit s p KEY0 (by decide)]
      cases s.key_press.testBit KEY0 <;> cases s.key_state.testBit KEY0 <;>
        cases (TIMER0_OVF_vect s p).key_state.testBit KEY0 <;> simp [Nat.add_comm]
    | getKey =>
      simp only [List.cons_append, deliveries, freshPressEdges, kstep, List.append_eq]
      rw [ih (get_key_press s (1 <<< KEY0)).1, get_key_press_pending]
      simp only [ne_eq, key0_and_eq_zero_iff, get_key_press, Bool.not_eq_false]
      simp only [Bool.false_eq_true, if_false]
      omega

/-- C2, as stated, fails: after two debounced presses with no consumer call in
between, one `get_key_press` call returns non-zero although bit `KEY0` of
`key_state` went from released to pressed in two ticks. -/
theorem deliveries_ne_pressEdges :
    deliveries (boot 0x10) twoPresses = 1 ∧ pressEdges (boot 0x10) twoPresses = 2 := by
  decide

/-- C2 (amended): in every interleaving of ticks and `get_key_press(1 << KEY0)`
calls that starts at boot and ends with a consumer call, the number of calls
that return a non-zero value equals the number of ticks in which bit `KEY0` of
`key_state` went from released to pressed while no press of `KEY0` was pending. -/
theorem deliveries_eq_freshPressEdges (pin : Nat) (ops : List KOp) :
    deliveries (boot pin) (ops ++ [KOp.getKey])
      = freshPressEdges (boot pin) (ops ++ [KOp.getKey]) := by
  rw [deliveries_eq ops (boot pin)]
  simp [boot]

/-! ## The toggle state machine -/

theorem key0_and_eq (p : Nat) (h : p.testBit KEY0 = true) :
    (1 <<< KEY0) &&& p = 1 <<< KEY0 := by
  apply Nat.eq_of_testBit_eq
  intro b
  rw [Nat.testBit_and, key0_mask_testBit]
  by_cases e : KEY0 = b
  · subst e; simp [h]
  · simp [e]

theorem debounce_idle (s : State) (h : s.key_press.testBit KEY0 = false) :
    debounce s = s := by
  have e : (1 <<< KEY0) &&& s.key_press = 0 := (key0_and_eq_zero_iff _).2 h
  simp [debounce, get_key_press, e]

theorem debounce_press (s : State) (h : s.key_press.testBit KEY0 = true) :
    debounce s =
      if s.run_state ≠ 0 then
        { s with
            key_press := s.key_press ^^^ (1 <<< KEY0)
            run_state := 0
            PORTB := s.PORTB &&& not8 (1 <<< LED0)
            state := STATE_RELEASE_KEY }
      else
        { s with
            key_press := s.key_press ^^^ (1 <<< KEY0)
            run_state := 1
            PORTB := s.PORTB ||| (1 <<< LED0)
            state := STATE_SEND_KEY } := by
  have e : (1 <<< KEY0) &&& s.key_press = 1 <<< KEY0 := key0_and_eq _ h
  have n : (1 <<< KEY0 : Nat) ≠ 0 := by decide
  simp only [debounce, get_key_press, e, n, ne_eq, not_false_eq_true, if_true]

theorem debounce_key_press_bit (s : State) (b : Nat) :
    (debounce s).key_press.testBit b = (s.key_press.testBit b && !decide (KEY0 = b)) := by
  cases h : s.key_press.testBit KEY0 with
  | false =>
    rw [debounce_idle s h]
    by_cases e : KEY0 = b
    · subst e; simp [h]
    · simp [e]
  | true =>
    rw [debounce_press s h]
    split <;>
    · simp only [Nat.testBit_xor, key0_mask_testBit]
      by_cases e : KEY0 = b
      · subst e; simp [h]
      · simp [e]

theorem step_run_state_of_quiet (s : State) (op : Op)
    (h : s.key_press.testBit KEY0 = false) (hq : pressEdgeFree s [op]) :
    (step s op).run_state = s.run_state ∧ (step s op).key_press.testBit KEY0 = false := by
  cases op with
  | tick p =>
    refine ⟨rfl, ?_⟩
    have hk := tick_key_press_bit s p KEY0 (by decide)
    simp only [pressEdgeFree, and_true, not_and, Bool.not_eq_true] at hq
    simp only [step, hk, h, Bool.false_or]
    cases hs : s.key_state.testBit KEY0 with
    | false => simp [hq hs]
    | true => simp
  | debounce => simp only [step, debounce_idle s h, h, and_self]
  | gate r =>
    simp only [step, gate, buildReport, usbSetInterrupt]
    split
    · split
      · exact ⟨rfl, h⟩
      · split <;> exact ⟨rfl, h⟩
    · exact ⟨rfl, h⟩
  | usbWrite d =>
    simp only [step, usbFunctionWrite]
    split
    · exact ⟨rfl, h⟩
    · split <;> exact ⟨rfl, h⟩
  | usbSetup rq =>
    simp only [step, usbFunctionSetup]
    split
    · split
      · exact ⟨rfl, h⟩
      · split
        · exact ⟨rfl, h⟩
        · split
          · exact ⟨rfl, h⟩
          · split <;> exact ⟨rfl, h⟩
    · exact ⟨rfl, h⟩

theorem pressEdgeFree_cons (s : State) (op : Op) (ops : List Op)
    (h : pressEdgeFree s (op :: ops)) :
    pressEdgeFree s [op] ∧ pressEdgeFree (step s op) ops := by
  cases op <;> simp_all [pressEdgeFree]

theorem run_cons (s : State) (op : Op) (ops : List Op) :
    run s (op :: ops) = run (step s op) ops := rfl

theorem run_append (s : State) (ops ops2 : List Op) :
    run s (ops ++ ops2) = run (run s ops) ops2 := by
  simp [run, List.foldl_append]

theorem run_state_of_quiet (ops : List Op) :
    ∀ s : State, s.key_press.testBit KEY0 = false → pressEdgeFree s ops →
      (run s ops).run_state = s.run_state := by
  induction ops with
  | nil => intro s _ _; rfl
  | cons op ops ih =>
    intro s h hq
    obtain ⟨h1, h2⟩ := pressEdgeFree_cons s op ops hq
    obtain ⟨e1, e2⟩ := step_run_state_of_quiet s op h h1
    rw [run_cons, ih (step s op) e2 h2, e1]

/-- C4 (toggle state machine): if bit `KEY0` of `key_press` is set, `debounce()`
clears exactly that pending bit and flips the mode once: Idle (`run_state = 0`)
becomes Active (`run_state = 1`) with the `LED0` port bit set and
`state = STATE_SEND_KEY`, Active (`run_state` non-zero) becomes Idle with the
`LED0` port bit cleared and `state = STATE_RELEASE_KEY`; if the bit is clear the
whole state is unchanged.  After a call, `run_state` does not change again in
any execution without a press edge of `KEY0`. -/
theorem debounce_toggle (s : State) :
    (s.key_press.testBit KEY0 = true →
      (debounce s).key_press.testBit KEY0 = false ∧
      (∀ b, b ≠ KEY0 → (debounce s).key_press.testBit b = s.key_press.testBit b) ∧
      (s.run_state = 0 →
        (debounce s).run_state = 1 ∧ (debounce s).PORTB.testBit LED0 = true ∧
        (debounce s).state = STATE_SEND_KEY) ∧
      (s.run_state ≠ 0 →
        (debounce s).run_state = 0 ∧ (debounce s).PORTB.testBit LED0 = false ∧
        (debounce s).state = STATE_RELEASE_KEY)) ∧
    (s.key_press.testBit KEY0 = false → debounce s = s) ∧
    debounce (debounce s) = debounce s ∧
    (∀ ops, pressEdgeFree (debounce s) ops →
      (run (debounce s) ops).run_state = (debounce s).run_state) := by
  have hclear : (debounce s).key_press.testBit KEY0 = false := by
    rw [debounce_key_press_bit]; simp
  refine ⟨?_, debounce_idle s, debounce_idle _ hclear, ?_⟩
  · intro h
    refine ⟨hclear, ?_, ?_, ?_⟩
    · intro b hb
      rw [debounce_key_press_bit]
      have : ¬ KEY0 = b := fun e => hb e.symm
      simp [this]
    · intro h0
      rw [debounce_press s h]
      have hbit : (1 <<< LED0 : Nat).testBit LED0 = true := by decide
      simp only [h0, ne_eq, not_true_eq_false, if_false, Nat.testBit_or, true_and, hbit,
        Bool.or_true, and_self]
    · intro h0
      rw [debounce_press s h]
      have hbit : (1 <<< LED0 : Nat).testBit LED0 = true := by decide
      simp only [h0, ne_eq, not_false_eq_true, if_true, Nat.testBit_and, not8_testBit,
        true_and, hbit, Bool.not_true, Bool.and_false, and_self]
  · intro ops hq
    exact run_state_of_quiet ops (debounce s) hclear hq

/-! ## Reachable states -/

theorem inv_boot (pin : Nat) : Inv (boot pin) := by
  simp [Inv, boot, STATE_WAIT]

theorem inv_debounce (s : State) (h : Inv s) : Inv (debounce s) := by
  cases hk : s.key_press.testBit KEY0 with
  | false => rw [debounce_idle s hk]; exact h
  | true =>
    rw [debounce_press s hk]
    obtain ⟨h1, h2, h3, h4, h5, h6, h7⟩ := h
    split
    · exact ⟨h1, h2, h3, h4, h5, h6, Or.inl ⟨rfl, Or.inr rfl⟩⟩
    · exact ⟨h1, h2, h3, h4, h5, h6, Or.inr ⟨rfl, rfl⟩⟩

theorem inv_gate (s : State) (r : Bool) (h : Inv s) : Inv (gate s r) := by
  obtain ⟨h1, h2, h3, h4, h5, h6, h7⟩ := h
  unfold gate
  split
  · rcases h7 with ⟨hr, hw | hw⟩ | ⟨hr, hw⟩
    · simp_all
    · refine ⟨?_, ?_, ?_, ?_, ?_, ?_, Or.inl ⟨?_, Or.inl ?_⟩⟩ <;>
        simp [hw, STATE_RELEASE_KEY, STATE_SEND_KEY, usbSetInterrupt, buildReport, *]
    · refine ⟨?_, ?_, ?_, ?_, ?_, ?_, Or.inr ⟨?_, ?_⟩⟩ <;>
        simp [hw, usbSetInterrupt, buildReport, KEY_W, *]
  · exact ⟨h1, h2, h3, h4, h5, h6, h7⟩

theorem inv_usbFunctionWrite (s : State) (d : List Nat) (h : Inv s) :
    Inv (usbFunctionWrite s d).1 := by
  unfold usbFunctionWrite
  simp only
  split
  · exact h
  · split <;> exact h

theorem inv_usbFunctionSetup (s : State) (rq : usbRequest_t) (h : Inv s) :
    Inv (usbFunctionSetup s rq).1 := by
  unfold usbFunctionSetup
  split
  · split
    · exact h
    · split
      · exact h
      · split
        · exact h
        · split <;> exact h
  · exact h

theorem inv_step (s : State) (op : Op) (h : Inv s) : Inv (step s op) := by
  cases op with
  | tick p => exact h
  | debounce => exact inv_debounce s h
  | gate r => exact inv_gate s r h
  | usbWrite d => exact inv_usbFunctionWrite s d h
  | usbSetup rq => exact inv_usbFunctionSetup s rq h

theorem inv_run (ops : List Op) : ∀ s : State, Inv s → Inv (run s ops) := by
  induction ops with
  | nil => intro s h; exact h
  | cons op ops ih => intro s h; exact ih (step s op) (inv_step s op h)

theorem inv_of_reachable (s : State) (h : Reachable s) : Inv s := by
  obtain ⟨pin, ops, rfl⟩ := h
  exact inv_run ops (boot pin) (inv_boot pin)

/-! ## The transmission gate -/

theorem gate_send (s : State) (hs : s.state = STATE_SEND_KEY) (hl : s.LED_state ≠ 0xff) :
    gate s true =
      { s with
          keyboard_report :=
            { s.keyboard_report with modifier := MOD_SHIFT_LEFT, keycode0 := KEY_W }
          sent := s.sent ++
            [reportBytes { s.keyboard_report with modifier := MOD_SHIFT_LEFT, keycode0 := KEY_W }] } := by
  simp [gate, hs, hl, STATE_SEND_KEY, STATE_WAIT, buildReport, usbSetInterrupt, KEY_W]

theorem gate_release (s : State) (hs : s.state = STATE_RELEASE_KEY)
    (hl : s.LED_state ≠ 0xff) :
    gate s true =
      { s with
          keyboard_report := { s.keyboard_report with modifier := 0, keycode0 := 0 }
          state := STATE_WAIT
          sent := s.sent ++
            [reportBytes { s.keyboard_report with modifier := 0, keycode0 := 0 }] } := by
  simp [gate, hs, hl, STATE_SEND_KEY, STATE_RELEASE_KEY, STATE_WAIT, buildReport,
    usbSetInterrupt]

theorem gate_closed (s : State) (ready : Bool)
    (h : ready = false ∨ s.state = STATE_WAIT ∨ s.LED_state = 0xff) :
    gate s ready = s := by
  unfold gate
  rw [if_neg]
  rintro ⟨h1, h2, h3⟩
  rcases h with h | h | h
  · rw [h] at h1; exact Bool.noConfusion h1
  · exact h2 h
  · exact h3 h

theorem gates_cons (s : State) (r : Bool) (rs : List Bool) :
    gates s (r :: rs) = gates (gate s r) rs := rfl

theorem gates_closed (readys : List Bool) (s : State)
    (h : ∀ r ∈ readys, r = false ∨ s.state = STATE_WAIT ∨ s.LED_state = 0xff) :
    gates s readys = s := by
  induction readys with
  | nil => rfl
  | cons r rs ih =>
    rw [gates_cons, gate_closed s r (h r (List.mem_cons_self r rs))]
    exact ih (fun r2 hr2 => h r2 (List.mem_cons_of_mem r hr2))

/-- C7 (gate withholding): if the transport is not ready, or
`state = STATE_WAIT`, or `LED_state` is the sentinel `0xff`, a gate evaluation
changes nothing: `keyboard_report`, `state` and the reports handed to the
transport are as before; the same holds across any number of gate evaluations
under these conditions, so a pending `STATE_SEND_KEY` stays pending. -/
theorem gate_withhold (s : State) (ready : Bool)
    (h : ready = false ∨ s.state = STATE_WAIT ∨ s.LED_state = 0xff) :
    gate s ready = s ∧
    (gate s ready).keyboard_report = s.keyboard_report ∧
    (gate s ready).state = s.state ∧
    (gate s ready).sent = s.sent ∧
    (∀ readys : List Bool,
      (∀ r ∈ readys, r = false ∨ s.state = STATE_WAIT ∨ s.LED_state = 0xff) →
      gates s readys = s ∧ (gates s readys).state = s.state ∧
      (gates s readys).sent = s.sent) := by
  have e := gate_closed s ready h
  refine ⟨e, by rw [e], by rw [e], by rw [e], ?_⟩
  intro readys hall
  have e2 := gates_closed readys s hall
  exact ⟨e2, by rw [e2], by rw [e2]⟩

/-- Witness of `gate_withhold`: a pending `STATE_SEND_KEY` before the host has
sent its LED state, transport ready. -/
theorem gate_withhold_witness :
    (run (boot 0x10) [Op.tick 0, Op.tick 0, Op.tick 0, Op.tick 0, Op.debounce]).state
      = STATE_SEND_KEY ∧
    gate (run (boot 0x10) [Op.tick 0, Op.tick 0, Op.tick 0, Op.tick 0, Op.debounce]) true
      = run (boot 0x10) [Op.tick 0, Op.tick 0, Op.tick 0, Op.tick 0, Op.debounce] :=
  ⟨by decide,
    (gate_withhold
      (run (boot 0x10) [Op.tick 0, Op.tick 0, Op.tick 0, Op.tick 0, Op.debounce]) true
      (Or.inr (Or.inr (by decide)))).1⟩

theorem consumeFree_cons (s : State) (op : Op) (ops : List Op)
    (h : consumeFree s (op :: ops)) :
    consumeFree s [op] ∧ consumeFree (step s op) ops := by
  cases op <;> simp_all [consumeFree]

theorem report_zero_update (r : keyboard_report_t) (hm : r.modifier = 0)
    (hk : r.keycode0 = 0) : { r with modifier := 0, keycode0 := 0 } = r := by
  cases r
  simp_all

theorem step_wait_quiet (s : State) (op : Op) (hs : s.state = STATE_WAIT)
    (hm : s.keyboard_report.modifier = 0) (hk : s.keyboard_report.keycode0 = 0)
    (hq : consumeFree s [op]) :
    (step s op).sent = s.sent ∧ (step s op).state = s.state ∧
    (step s op).keyboard_report = s.keyboard_report := by
  cases op with
  | tick p => exact ⟨rfl, rfl, rfl⟩
  | debounce =>
    simp only [consumeFree, and_true] at hq
    have hb : s.key_press.testBit KEY0 = false := (key0_and_eq_zero_iff _).1 hq
    simp only [step, debounce_idle s hb, and_self]
  | gate r =>
    simp only [step, gate_closed s r (Or.inr (Or.inl hs)), and_self]
  | usbWrite d =>
    simp only [step, usbFunctionWrite]
    split
    · exact ⟨rfl, rfl, rfl⟩
    · split <;> exact ⟨rfl, rfl, rfl⟩
  | usbSetup rq =>
    simp only [step, usbFunctionSetup]
    split
    · split
      · exact ⟨rfl, rfl, report_zero_update _ hm hk⟩
      · split
        · exact ⟨rfl, rfl, rfl⟩
        · split
          · exact ⟨rfl, rfl, rfl⟩
          · split <;> exact ⟨rfl, rfl, rfl⟩
    · exact ⟨rfl, rfl, rfl⟩

theorem run_wait_quiet (ops : List Op) :
    ∀ s : State, s.state = STATE_WAIT → s.keyboard_report.modifier = 0 →
      s.keyboard_report.keycode0 = 0 → consumeFree s ops →
      (run s ops).sent = s.sent ∧ (run s ops).state = STATE_WAIT ∧
      (run s ops).keyboard_report = s.keyboard_report := by
  induction ops with
  | nil => intro s hs _ _ _; exact ⟨rfl, hs, rfl⟩
  | cons op ops ih =>
    intro s hs hm hk hq
    obtain ⟨q1, q2⟩ := consumeFree_cons s op ops hq
    obtain ⟨e1, e2, e3⟩ := step_wait_quiet s op hs hm hk q1
    obtain ⟨f1, f2, f3⟩ := ih (step s op) (by rw [e2]; exact hs) (by rw [e3]; exact hm)
      (by rw [e3]; exact hk) q2
    rw [run_cons]
    exact ⟨by rw [f1, e1], f2, by rw [f3, e3]⟩

/-- C6 (gate step in the ReleaseKey phase): in a state reachable from boot with
`state = STATE_RELEASE_KEY`, the transport ready and `LED_state != 0xff`, one
gate evaluation leaves all 8 bytes of `keyboard_report` zero, hands exactly one
report to the transport and sets `state = STATE_WAIT`; afterwards, in every
execution in which no `debounce()` call consumes a press event, no report is
built or sent and `state` stays `STATE_WAIT`. -/
theorem gate_release_key (s : State) (hr : Reachable s) (hs : s.state = STATE_RELEASE_KEY)
    (hl : s.LED_state ≠ 0xff) :
    reportBytes (gate s true).keyboard_report = [0, 0, 0, 0, 0, 0, 0, 0] ∧
    (gate s true).sent = s.sent ++ [[0, 0, 0, 0, 0, 0, 0, 0]] ∧
    (gate s true).state = STATE_WAIT ∧
    (∀ ops, consumeFree (gate s true) ops →
      (run (gate s true) ops).sent = (gate s true).sent ∧
      (run (gate s true) ops).state = STATE_WAIT ∧
      (run (gate s true) ops).keyboard_report = (gate s true).keyboard_report) := by
  obtain ⟨h1, h2, h3, h4, h5, h6, _⟩ := inv_of_reachable s hr
  have hg := gate_release s hs hl
  refine ⟨?_, ?_, by rw [hg], ?_⟩
  · rw [hg]; simp [reportBytes, h1, h2, h3, h4, h5, h6]
  · rw [hg]; simp [reportBytes, h1, h2, h3, h4, h5, h6]
  · intro ops hq
    exact run_wait_quiet ops (gate s true) (by rw [hg]) (by rw [hg]) (by rw [hg]) hq

/-- Witness of `gate_release_key`: a press while idle, the key report sent, a
release and a second press consumed by `debounce()`. -/
theorem gate_release_key_witness :
    (gate (run (boot 0x10)
      [Op.usbWrite [0], Op.tick 0, Op.tick 0, Op.tick 0, Op.tick 0, Op.debounce,
        Op.gate true, Op.tick 0x10, Op.tick 0x10, Op.tick 0x10, Op.tick 0x10,
        Op.tick 0, Op.tick 0, Op.tick 0, Op.tick 0, Op.debounce]) true).sent
      = [[OneKey.MOD_SHIFT_LEFT, 0, KEY_W, 0, 0, 0, 0, 0], [0, 0, 0, 0, 0, 0, 0, 0]] ∧
    (gate (run (boot 0x10)
      [Op.usbWrite [0], Op.tick 0, Op.tick 0, Op.tick 0, Op.tick 0, Op.debounce,
        Op.gate true, Op.tick 0x10, Op.tick 0x10, Op.tick 0x10, Op.tick 0x10,
        Op.tick 0, Op.tick 0, Op.tick 0, Op.tick 0, Op.debounce]) true).state
      = STATE_WAIT :=
  have h := gate_release_key
    (run (boot 0x10)
      [Op.usbWrite [0], Op.tick 0, Op.tick 0, Op.tick 0, Op.tick 0, Op.debounce,
        Op.gate true, Op.tick 0x10, Op.tick 0x10, Op.tick 0x10, Op.tick 0x10,
        Op.tick 0, Op.tick 0, Op.tick 0, Op.tick 0, Op.debounce])
    ⟨0x10, [Op.usbWrite [0], Op.tick 0, Op.tick 0, Op.tick 0, Op.tick 0, Op.debounce,
        Op.gate true, Op.tick 0x10, Op.tick 0x10, Op.tick 0x10, Op.tick 0x10,
        Op.tick 0, Op.tick 0, Op.tick 0, Op.tick 0, Op.debounce], rfl⟩
    (by decide) (by decide)
  ⟨h.2.1, h.2.2.1⟩

/-! ## Scenarios -/

theorem lineOf_ticks (b : Nat) (hb : b < 8) (pins : List Nat) :
    ∀ s : State,
      lineOf (ticks s pins) b = lineTicks (lineOf s b) (pins.map (fun p => p.testBit b)) := by
  induction pins with
  | nil => intro s; rfl
  | cons p ps ih =>
    intro s
    rw [ticks_cons, ih (TIMER0_OVF_vect s p), lineOf_tick s p b hb]
    rfl

theorem ticks_frame (pins : List Nat) :
    ∀ s : State,
      (ticks s pins).run_state = s.run_state ∧ (ticks s pins).state = s.state ∧
      (ticks s pins).LED_state = s.LED_state ∧
      (ticks s pins).keyboard_report = s.keyboard_report ∧
      (ticks s pins).sent = s.sent ∧ (ticks s pins).PORTB = s.PORTB := by
  induction pins with
  | nil => intro s; exact ⟨rfl, rfl, rfl, rfl, rfl, rfl⟩
  | cons p ps ih => intro s; rw [ticks_cons]; exact ih (TIMER0_OVF_vect s p)

theorem map_testBit_const (pins : List Nat) (b n : Nat) (v : Bool)
    (h : pins.length = n ∧ ∀ p ∈ pins, p.testBit b = v) :
    pins.map (fun p => p.testBit b) = List.replicate n v := by
  rw [List.eq_replicate_iff]
  refine ⟨by rw [List.length_map]; exact h.1, ?_⟩
  intro x hx
  obtain ⟨p, hp, rfl⟩ := List.mem_map.1 hx
  exact h.2 p hp

theorem line_release (kp : Bool) :
    lineTicks { ks := true, kp := kp, c0 := true, c1 := true } (List.replicate 4 true)
      = { ks := false, kp := kp, c0 := true, c1 := true } := by
  cases kp <;> rfl

theorem line_press (kp : Bool) :
    lineTicks { ks := false, kp := kp, c0 := true, c1 := true } (List.replicate 4 false)
      = { ks := true, kp := true, c0 := true, c1 := true } := by
  cases kp <;> rfl

theorem lineOf_eq (s : State) (b : Nat) (ks kp c0 c1 : Bool)
    (h1 : s.key_state.testBit b = ks) (h2 : s.key_press.testBit b = kp)
    (h3 : s.ct0.testBit b = c0) (h4 : s.ct1.testBit b = c1) :
    lineOf s b = { ks := ks, kp := kp, c0 := c0, c1 := c1 } := by
  simp [lineOf, h1, h2, h3, h4]

/-- C8, as stated, fails: in the Active state with the button debounced as
pressed, nothing pending and the counters at rest, four "released" samples and
one main-loop iteration leave `run_state = 1` and `state = STATE_SEND_KEY`, and
the report built is the key report. -/
theorem release_keeps_active :
    activeHeld.run_state = 1 ∧ activeHeld.state = STATE_SEND_KEY ∧
    activeHeld.key_state.testBit KEY0 = true ∧ activeHeld.key_press.testBit KEY0 = false ∧
    activeHeld.ct0.testBit KEY0 = true ∧ activeHeld.ct1.testBit KEY0 = true ∧
    activeHeld.LED_state ≠ 0xff ∧
    (ticks activeHeld [0x10, 0x10, 0x10, 0x10]).key_state.testBit KEY0 = false ∧
    (loop_body (ticks activeHeld [0x10, 0x10, 0x10, 0x10]) true).run_state = 1 ∧
    (debounce (ticks activeHeld [0x10, 0x10, 0x10, 0x10])).state = STATE_SEND_KEY ∧
    (loop_body (ticks activeHeld [0x10, 0x10, 0x10, 0x10]) true).state = STATE_SEND_KEY ∧
    reportBytes (loop_body (ticks activeHeld [0x10, 0x10, 0x10, 0x10]) true).keyboard_report
      = [OneKey.MOD_SHIFT_LEFT, 0, KEY_W, 0, 0, 0, 0, 0] := by
  decide

/-- C8 (amended): from a state in which the mode is Active (`run_state = 1`,
`state = STATE_SEND_KEY`), the button is debounced as pressed, no press is
pending, the `KEY0` counters are at rest and `LED_state` is known: after four
"released" samples bit `KEY0` of `key_state` is 0 but no press is pending, and
one main-loop iteration leaves `run_state = 1` and `state = STATE_SEND_KEY`;
after four further "pressed" samples a press is pending, and one main-loop
iteration makes `run_state` 0, takes `state` through `STATE_RELEASE_KEY`, builds
a report with modifier and `keycode[0]` zero (all 8 bytes zero when the state is
reachable from boot) and ends with `state = STATE_WAIT`. -/
theorem release_then_press (s : State) (hrun : s.run_state = 1)
    (hst : s.state = STATE_SEND_KEY) (hks : s.key_state.testBit KEY0 = true)
    (hkp : s.key_press.testBit KEY0 = false) (h0 : s.ct0.testBit KEY0 = true)
    (h1 : s.ct1.testBit KEY0 = true) (hl : s.LED_state ≠ 0xff)
    (rel prs : List Nat)
    (hrel : rel.length = 4 ∧ ∀ p ∈ rel, p.testBit KEY0 = true)
    (hprs : prs.length = 4 ∧ ∀ p ∈ prs, p.testBit KEY0 = false) :
    (ticks s rel).key_state.testBit KEY0 = false ∧
    (ticks s rel).key_press.testBit KEY0 = false ∧
    (loop_body (ticks s rel) true).run_state = 1 ∧
    (loop_body (ticks s rel) true).state = STATE_SEND_KEY ∧
    (ticks s (rel ++ prs)).key_press.testBit KEY0 = true ∧
    (debounce (ticks s (rel ++ prs))).run_state = 0 ∧
    (debounce (ticks s (rel ++ prs))).state = STATE_RELEASE_KEY ∧
    (loop_body (ticks s (rel ++ prs)) true).run_state = 0 ∧
    (loop_body (ticks s (rel ++ prs)) true).keyboard_report.modifier = 0 ∧
    (loop_body (ticks s (rel ++ prs)) true).keyboard_report.keycode0 = 0 ∧
    (Reachable s →
      reportBytes (loop_body (ticks s (rel ++ prs)) true).keyboard_report
        = [0, 0, 0, 0, 0, 0, 0, 0]) ∧
    (loop_body (ticks s (rel ++ prs)) true).state = STATE_WAIT := by
  have hb : KEY0 < 8 := by decide
  -- the line after the release window
  have l1 : lineOf (ticks s rel) KEY0 = { ks := false, kp := false, c0 := true, c1 := true } := by
    rw [lineOf_ticks KEY0 hb rel s, map_testBit_const rel KEY0 4 true hrel,
      lineOf_eq s KEY0 true false true true hks hkp h0 h1]
    exact line_release false
  have l2 : lineOf (ticks s (rel ++ prs)) KEY0
      = { ks := true, kp := true, c0 := true, c1 := true } := by
    rw [ticks_append, lineOf_ticks KEY0 hb prs (ticks s rel),
      map_testBit_const prs KEY0 4 false hprs, l1]
    exact line_press false
  have k1 : (ticks s rel).key_state.testBit KEY0 = false := congrArg Line.ks l1
  have k2 : (ticks s rel).key_press.testBit KEY0 = false := congrArg Line.kp l1
  have k3 : (ticks s (rel ++ prs)).key_press.testBit KEY0 = true := congrArg Line.kp l2
  obtain ⟨f1, f2, f3, f4, _, _⟩ := ticks_frame rel s
  obtain ⟨g1, g2, g3, g4, _, _⟩ := ticks_frame (rel ++ prs) s
  have d1 : debounce (ticks s rel) = ticks s rel := debounce_idle _ k2
  have d2 := debounce_press (ticks s (rel ++ prs)) k3
  have n1 : (ticks s (rel ++ prs)).run_state ≠ 0 := by rw [g1, hrun]; decide
  rw [if_pos n1] at d2
  have gs := gate_send (ticks s rel) (by rw [f2]; exact hst) (by rw [f3]; exact hl)
  have gr := gate_release (debounce (ticks s (rel ++ prs))) (by rw [d2])
    (by rw [d2]; exact (by rw [g3]; exact hl : (ticks s (rel ++ prs)).LED_state ≠ 0xff))
  refine ⟨k1, k2, ?_, ?_, k3, by rw [d2], by rw [d2], ?_, ?_, ?_, ?_, ?_⟩
  · rw [loop_body, d1, gs]; exact f1.trans hrun
  · rw [loop_body, d1, gs]; exact f2.trans hst
  · rw [loop_body, gr, d2]
  · rw [loop_body, gr]
  · rw [loop_body, gr]
  · intro hr
    obtain ⟨i1, i2, i3, i4, i5, i6, _⟩ := inv_of_reachable s hr
    rw [loop_body, gr, d2]
    simp only [reportBytes, g4, i1, i2, i3, i4, i5, i6]
  · rw [loop_body, gr]

/-- Witness of `release_then_press`: the Active state reached from boot, four
"released" samples, four "pressed" samples. -/
theorem release_then_press_witness :
    (loop_body (ticks activeHeld [0x10, 0x10, 0x10, 0x10]) true).run_state = 1 ∧
    (loop_body (ticks activeHeld ([0x10, 0x10, 0x10, 0x10] ++ [0, 0, 0, 0])) true).run_state = 0 ∧
    (loop_body (ticks activeHeld ([0x10, 0x10, 0x10, 0x10] ++ [0, 0, 0, 0])) true).state
      = STATE_WAIT :=
  have h := release_then_press activeHeld (by decide) (by decide) (by decide) (by decide)
    (by decide) (by decide) (by decide) [0x10, 0x10, 0x10, 0x10] [0, 0, 0, 0]
    (by decide) (by decide)
  ⟨h.2.2.1, h.2.2.2.2.2.2.2.1, h.2.2.2.2.2.2.2.2.2.2.2⟩

theorem ticks_high (b : Nat) (hb : 8 ≤ b) (pins : List Nat) :
    ∀ s : State,
      (ticks s pins).key_state.testBit b = s.key_state.testBit b ∧
      (ticks s pins).key_press.testBit b = s.key_press.testBit b := by
  induction pins with
  | nil => intro s; exact ⟨rfl, rfl⟩
  | cons p ps ih =>
    intro s
    obtain ⟨e1, e2⟩ := ih (TIMER0_OVF_vect s p)
    obtain ⟨t1, t2⟩ := tick_high s p b hb
    rw [ticks_cons]
    exact ⟨e1.trans t1, e2.trans t2⟩

theorem line_steady (v : Bool) :
    lineTicks { ks := !v, kp := false, c0 := true, c1 := true } (List.replicate 4 v)
      = { ks := !v, kp := false, c0 := true, c1 := true } := by
  cases v <;> rfl

theorem usbFunctionWrite_frame (s : State) (d : List Nat) :
    (usbFunctionWrite s d).1.key_state = s.key_state ∧
    (usbFunctionWrite s d).1.key_press = s.key_press ∧
    (usbFunctionWrite s d).1.ct0 = s.ct0 ∧ (usbFunctionWrite s d).1.ct1 = s.ct1 ∧
    (usbFunctionWrite s d).1.run_state = s.run_state ∧
    (usbFunctionWrite s d).1.state = s.state ∧
    (usbFunctionWrite s d).1.keyboard_report = s.keyboard_report ∧
    (usbFunctionWrite s d).1.sent = s.sent := by
  unfold usbFunctionWrite
  simp only
  split
  · exact ⟨rfl, rfl, rfl, rfl, rfl, rfl, rfl, rfl⟩
  · split <;> exact ⟨rfl, rfl, rfl, rfl, rfl, rfl, rfl, rfl⟩

theorem usbFunctionWrite_LED_state (s : State) (d : List Nat) :
    (usbFunctionWrite s d).1.LED_state = d.headD 0 % 256 := by
  unfold usbFunctionWrite
  simp only
  split
  · rename_i h; exact h.symm
  · split <;> rfl

/-- C9, as stated, fails: from boot with the button released and `LED_state`
known, two "pressed" samples set no pending bit, and the following main-loop
iteration leaves `run_state = 0` and `state = STATE_WAIT` and sends nothing. -/
theorem two_ticks_no_press :
    bootKnown.LED_state ≠ 0xff ∧ bootKnown.key_state.testBit KEY0 = false ∧
    (ticks bootKnown [0x00, 0x00]).key_press = 0 ∧
    (loop_body (ticks bootKnown [0x00, 0x00]) true).run_state = 0 ∧
    (loop_body (ticks bootKnown [0x00, 0x00]) true).state = STATE_WAIT ∧
    (loop_body (ticks bootKnown [0x00, 0x00]) true).sent = [] := by
  decide

/-- C9 (amended): from the boot state with the button released, once the host
has sent an LED byte other than `0xff` and with the transport ready, holding the
raw input pressed for 4 consecutive sampler ticks (the other lines unchanged)
sets exactly one pending bit, bit `KEY0` of `key_press`, at the fourth tick and
not before; the following main-loop iteration drains it, makes `run_state` 1 and
`state` `STATE_SEND_KEY`, and builds and sends the non-zero report
(`MOD_SHIFT_LEFT`, `KEY_W`). -/
theorem four_ticks_press (pin : Nat) (data : List Nat) (prs : List Nat)
    (hpin : pin.testBit KEY0 = true) (hled : data.headD 0 % 256 ≠ 0xff)
    (hprs : prs.length = 4 ∧ ∀ p ∈ prs, p.testBit KEY0 = false ∧
      ∀ b, b < 8 → b ≠ KEY0 → p.testBit b = pin.testBit b) :
    (∀ n, n < 4 →
      (ticks (usbFunctionWrite (boot pin) data).1 (prs.take n)).key_press.testBit KEY0
        = false) ∧
    (ticks (usbFunctionWrite (boot pin) data).1 prs).key_press = 1 <<< KEY0 ∧
    (loop_body (ticks (usbFunctionWrite (boot pin) data).1 prs) true).key_press = 0 ∧
    (loop_body (ticks (usbFunctionWrite (boot pin) data).1 prs) true).run_state = 1 ∧
    (loop_body (ticks (usbFunctionWrite (boot pin) data).1 prs) true).state
      = STATE_SEND_KEY ∧
    reportBytes (loop_body (ticks (usbFunctionWrite (boot pin) data).1 prs) true).keyboard_report
      = [OneKey.MOD_SHIFT_LEFT, 0, KEY_W, 0, 0, 0, 0, 0] ∧
    MOD_SHIFT_LEFT ≠ 0 ∧ KEY_W ≠ 0 ∧
    (loop_body (ticks (usbFunctionWrite (boot pin) data).1 prs) true).sent
      = [[OneKey.MOD_SHIFT_LEFT, 0, KEY_W, 0, 0, 0, 0, 0]] := by
  obtain ⟨w1, w2, w3, w4, w5, w6, w7, w8⟩ := usbFunctionWrite_frame (boot pin) data
  have wl := usbFunctionWrite_LED_state (boot pin) data
  generalize (usbFunctionWrite (boot pin) data).1 = s0 at *
  have hb4 : KEY0 < 8 := by decide
  have bootLine : ∀ b, b < 8 →
      lineOf s0 b = { ks := !pin.testBit b, kp := false, c0 := true, c1 := true } := by
    intro b hb
    apply lineOf_eq
    · rw [w1]; simp [boot, not8_testBit, hb]
    · rw [w2]; simp [boot]
    · rw [w3]
      have : (0xFF : Nat) = 2 ^ 8 - 1 := by norm_num
      simp only [boot]
      rw [this, Nat.testBit_two_pow_sub_one]; simp [hb]
    · rw [w4]
      have : (0xFF : Nat) = 2 ^ 8 - 1 := by norm_num
      simp only [boot]
      rw [this, Nat.testBit_two_pow_sub_one]; simp [hb]
  have hmap4 : prs.map (fun p => p.testBit KEY0) = List.replicate 4 false :=
    map_testBit_const prs KEY0 4 false ⟨hprs.1, fun p hp => (hprs.2 p hp).1⟩
  -- the pending mask after the four ticks
  have hkp : (ticks s0 prs).key_press = 1 <<< KEY0 := by
    apply Nat.eq_of_testBit_eq
    intro b
    rw [key0_mask_testBit]
    by_cases hb : b < 8
    · have hl := lineOf_ticks b hb prs s0
      by_cases e : KEY0 = b
      · subst e
        rw [hmap4, bootLine KEY0 hb, hpin] at hl
        have := congrArg Line.kp hl
        rw [lineOf_kp] at this
        rw [this]
        simp only [Bool.not_true, decide_True]
        rfl
      · have hm : prs.map (fun p => p.testBit b) = List.replicate 4 (pin.testBit b) :=
          map_testBit_const prs b 4 (pin.testBit b)
            ⟨hprs.1, fun p hp => (hprs.2 p hp).2 b hb (fun h => e h.symm)⟩
        rw [hm, bootLine b hb, line_steady] at hl
        have := congrArg Line.kp hl
        rw [lineOf_kp] at this
        rw [this]
        simp [e]
    · have h8 : 8 ≤ b := by omega
      rw [(ticks_high b h8 prs s0).2, w2]
      have : ¬ KEY0 = b := by intro h; rw [← h] at hb; exact hb hb4
      simp [boot, this]
  obtain ⟨g1, g2, g3, g4, g5, _⟩ := ticks_frame prs s0
  have hbit : (ticks s0 prs).key_press.testBit KEY0 = true := by
    rw [hkp, key0_mask_testBit]; simp
  have d := debounce_press (ticks s0 prs) hbit
  have hr0 : (ticks s0 prs).run_state = 0 := by rw [g1, w5]; rfl
  have n0 : ¬ (ticks s0 prs).run_state ≠ 0 := by rw [hr0]; simp
  rw [if_neg n0] at d
  have hled2 : (debounce (ticks s0 prs)).LED_state ≠ 0xff := by
    rw [d]
    show (ticks s0 prs).LED_state ≠ 0xff
    rw [g3, wl]; exact hled
  have gs := gate_send (debounce (ticks s0 prs)) (by rw [d]) hled2
  have hrep : (ticks s0 prs).keyboard_report = (boot pin).keyboard_report := by rw [g4, w7]
  have hsent : (ticks s0 prs).sent = [] := by rw [g5, w8]; rfl
  refine ⟨?_, hkp, ?_, ?_, ?_, ?_, by decide, by decide, ?_⟩
  · intro n hn
    have hl := lineOf_ticks KEY0 hb4 (prs.take n) s0
    rw [List.map_take, hmap4, bootLine KEY0 hb4, hpin] at hl
    have := congrArg Line.kp hl
    rw [lineOf_kp] at this
    rw [this]
    have hn4 : n = 0 ∨ n = 1 ∨ n = 2 ∨ n = 3 := by omega
    rcases hn4 with h | h | h | h <;> subst h <;> rfl
  · rw [loop_body, gs, d]
    show (ticks s0 prs).key_press ^^^ 1 <<< KEY0 = 0
    rw [hkp]; simp
  · rw [loop_body, gs, d]
  · rw [loop_body, gs, d]
  · rw [loop_body, gs, d]
    simp only [reportBytes, hrep]
    rfl
  · rw [loop_body, gs, d]
    simp only [reportBytes, hrep, hsent]
    rfl

/-- Witness of `four_ticks_press`: boot with only the button line high, the host
LED byte 0, four samples with the button line low. -/
theorem four_ticks_press_witness :
    (ticks (usbFunctionWrite (boot 0x10) [0]).1 [0, 0, 0, 0]).key_press = 1 <<< KEY0 ∧
    (loop_body (ticks (usbFunctionWrite (boot 0x10) [0]).1 [0, 0, 0, 0]) true).state
      = STATE_SEND_KEY :=
  have h := four_ticks_press 0x10 [0] [0, 0, 0, 0] (by decide) (by decide)
    ⟨by decide, by
      intro p hp
      have e : p = 0 := by simpa using hp
      subst e
      refine ⟨by decide, ?_⟩
      intro b hb hne
      have : b = 0 ∨ b = 1 ∨ b = 2 ∨ b = 3 ∨ b = 5 ∨ b = 6 ∨ b = 7 := by
        have : b ≠ 4 := hne
        omega
      rcases this with h | h | h | h | h | h | h <;> subst h <;> decide⟩
  ⟨h.2.1, h.2.2.2.2.1⟩

/-! ## Alternation of the report phases -/

theorem debounce_assign (s : State) (h : Inv s)
    (hk : (get_key_press s (1 <<< KEY0)).2 ≠ 0) :
    (s.run_state = 0 →
      (s.state = STATE_WAIT ∨ s.state = STATE_RELEASE_KEY) ∧
      (debounce s).state = STATE_SEND_KEY) ∧
    (s.run_state ≠ 0 → s.state = STATE_SEND_KEY ∧ (debounce s).state = STATE_RELEASE_KEY) := by
  have hb : s.key_press.testBit KEY0 = true := by
    by_contra hn
    exact hk ((key0_and_eq_zero_iff _).2 (by simpa using hn))
  have d := debounce_press s hb
  obtain ⟨_, _, _, _, _, _, h7⟩ := h
  constructor
  · intro h0
    have n0 : ¬ s.run_state ≠ 0 := by simp [h0]
    rw [if_neg n0] at d
    rcases h7 with ⟨_, hw⟩ | ⟨h1, _⟩
    · exact ⟨hw, by rw [d]⟩
    · rw [h0] at h1; exact absurd h1 (by decide)
  · intro h0
    rw [if_pos h0] at d
    rcases h7 with ⟨h1, _⟩ | ⟨_, hw⟩
    · exact absurd h1 h0
    · exact ⟨hw, by rw [d]⟩

theorem step_phase (s : State) (op : Op) (h : Inv s) :
    (step s op).state = s.state ∨
    (s.state ≠ STATE_SEND_KEY ∧ (step s op).state = STATE_SEND_KEY) ∨
    (s.state = STATE_SEND_KEY ∧ (step s op).state = STATE_RELEASE_KEY) ∨
    (s.state = STATE_RELEASE_KEY ∧ (step s op).state = STATE_WAIT) := by
  cases op with
  | tick p => exact Or.inl rfl
  | debounce =>
    cases hb : s.key_press.testBit KEY0 with
    | false => left; simp only [step, debounce_idle s hb]
    | true =>
      have hk : (get_key_press s (1 <<< KEY0)).2 ≠ 0 := by
        intro e
        have := (key0_and_eq_zero_iff _).1 e
        rw [hb] at this
        exact Bool.noConfusion this
      obtain ⟨a1, a2⟩ := debounce_assign s h hk
      by_cases h0 : s.run_state = 0
      · obtain ⟨hw, hd⟩ := a1 h0
        right; left
        refine ⟨?_, hd⟩
        rcases hw with hw | hw <;> rw [hw] <;> decide
      · obtain ⟨hw, hd⟩ := a2 h0
        right; right; left
        exact ⟨hw, hd⟩
  | gate r =>
    by_cases hc : r = false ∨ s.state = STATE_WAIT ∨ s.LED_state = 0xff
    · left; simp only [step, gate_closed s r hc]
    · have hr : r = true := by
        cases r
        · exact absurd (Or.inl rfl) hc
        · rfl
      have hl : s.LED_state ≠ 0xff := fun e => hc (Or.inr (Or.inr e))
      have hw : s.state ≠ STATE_WAIT := fun e => hc (Or.inr (Or.inl e))
      subst hr
      obtain ⟨_, _, _, _, _, _, h7⟩ := h
      rcases h7 with ⟨_, h2 | h2⟩ | ⟨_, h2⟩
      · exact absurd h2 hw
      · right; right; right
        exact ⟨h2, by simp only [step, gate_release s h2 hl]⟩
      · left; simp only [step, gate_send s h2 hl]
  | usbWrite d => left; exact (usbFunctionWrite_frame s d).2.2.2.2.2.1
  | usbSetup rq =>
    left
    simp only [step, usbFunctionSetup]
    split
    · split
      · rfl
      · split
        · rfl
        · split
          · rfl
          · split <;> rfl
    · rfl

theorem entries_alternate (ops : List Op) :
    ∀ s : State, Inv s →
      (s.state = STATE_SEND_KEY →
        entries s ops
          = alternation STATE_RELEASE_KEY STATE_SEND_KEY (entries s ops).length) ∧
      (s.state ≠ STATE_SEND_KEY →
        entries s ops
          = alternation STATE_SEND_KEY STATE_RELEASE_KEY (entries s ops).length) := by
  induction ops with
  | nil => intro s _; exact ⟨fun _ => rfl, fun _ => rfl⟩
  | cons op ops ih =>
    intro s h
    obtain ⟨ih1, ih2⟩ := ih (step s op) (inv_step s op h)
    have ne12 : STATE_RELEASE_KEY ≠ STATE_SEND_KEY := by decide
    have ne01 : STATE_WAIT ≠ STATE_SEND_KEY := by decide
    have ne02 : STATE_WAIT ≠ STATE_RELEASE_KEY := by decide
    rcases step_phase s op h with e | ⟨e1, e2⟩ | ⟨e1, e2⟩ | ⟨e1, e2⟩
    · have hnil : entries s (op :: ops) = entries (step s op) ops := by
        simp [entries, e]
      rw [hnil]
      exact ⟨fun hs => ih1 (e.trans hs), fun hs => ih2 (by rw [e]; exact hs)⟩
    · have hcons : entries s (op :: ops) = STATE_SEND_KEY :: entries (step s op) ops := by
        simp [entries, e2, Ne.symm e1]
      rw [hcons]
      refine ⟨fun hs => absurd hs e1, fun _ => ?_⟩
      rw [List.length_cons, alternation, ← ih1 e2]
    · have hcons : entries s (op :: ops) = STATE_RELEASE_KEY :: entries (step s op) ops := by
        simp [entries, e2, e1, ne12]
      rw [hcons]
      refine ⟨fun _ => ?_, fun hs => absurd e1 hs⟩
      rw [List.length_cons, alternation, ← ih2 (by rw [e2]; exact ne12)]
    · have hnil : entries s (op :: ops) = entries (step s op) ops := by
        simp [entries, e2, e1, ne01, ne02]
      rw [hnil]
      refine ⟨fun hs => absurd (e1.symm.trans hs) ne12, fun _ => ?_⟩
      exact ih2 (by rw [e2]; exact ne01)

/-- C10 (strict alternation of report phases): in every execution from boot the
entries into `STATE_SEND_KEY` and `STATE_RELEASE_KEY` alternate, starting with
`STATE_SEND_KEY`, so that between two successive entries into `STATE_SEND_KEY`
there is exactly one entry into `STATE_RELEASE_KEY`; in every state of the
execution `debounce()` assigns `STATE_SEND_KEY` only when `state` is
`STATE_WAIT` or `STATE_RELEASE_KEY` and assigns `STATE_RELEASE_KEY` only when
`state` is `STATE_SEND_KEY`, and no operation takes `state` from
`STATE_SEND_KEY` to `STATE_WAIT`. -/
theorem phase_alternation (pin : Nat) (ops : List Op) :
    entries (boot pin) ops
      = alternation STATE_SEND_KEY STATE_RELEASE_KEY (entries (boot pin) ops).length ∧
    ((get_key_press (run (boot pin) ops) (1 <<< KEY0)).2 ≠ 0 →
      (run (boot pin) ops).run_state = 0 →
      ((run (boot pin) ops).state = STATE_WAIT ∨
        (run (boot pin) ops).state = STATE_RELEASE_KEY) ∧
      (debounce (run (boot pin) ops)).state = STATE_SEND_KEY) ∧
    ((get_key_press (run (boot pin) ops) (1 <<< KEY0)).2 ≠ 0 →
      (run (boot pin) ops).run_state ≠ 0 →
      (run (boot pin) ops).state = STATE_SEND_KEY ∧
      (debounce (run (boot pin) ops)).state = STATE_RELEASE_KEY) ∧
    (∀ op, (run (boot pin) ops).state = STATE_SEND_KEY →
      (step (run (boot pin) ops) op).state ≠ STATE_WAIT) := by
  have hi := inv_run ops (boot pin) (inv_boot pin)
  have hb : (boot pin).state ≠ STATE_SEND_KEY := by simp [boot, STATE_WAIT, STATE_SEND_KEY]
  refine ⟨(entries_alternate ops (boot pin) (inv_boot pin)).2 hb,
    fun hk => (debounce_assign _ hi hk).1, fun hk => (debounce_assign _ hi hk).2, ?_⟩
  intro op hs
  rcases step_phase _ op hi with e | ⟨e1, _⟩ | ⟨_, e2⟩ | ⟨e1, _⟩
  · rw [e, hs]; decide
  · exact absurd hs e1
  · rw [e2]; decide
  · rw [hs] at e1; exact absurd e1 (by decide)

/-! ## Output of a SendKey phase -/

theorem step_sent_send (s : State) (op : Op) (hi : Inv s) (hs : s.state = STATE_SEND_KEY) :
    (step s op).sent
      = s.sent ++ List.replicate (openGates s [op]) [OneKey.MOD_SHIFT_LEFT, 0, KEY_W, 0, 0, 0, 0, 0] := by
  cases op with
  | tick p => simp [step, openGates, TIMER0_OVF_vect]
  | debounce =>
    cases hb : s.key_press.testBit KEY0 with
    | false => simp [step, openGates, debounce_idle s hb]
    | true =>
      simp only [step, openGates, debounce_press s hb]
      split <;> simp
  | gate r =>
    by_cases hc : r = false ∨ s.state = STATE_WAIT ∨ s.LED_state = 0xff
    · have hn : ¬ (r = true ∧ s.state ≠ STATE_WAIT ∧ s.LED_state ≠ 0xff) := by
        rintro ⟨h1, h2, h3⟩
        rcases hc with h | h | h
        · rw [h] at h1; exact Bool.noConfusion h1
        · exact h2 h
        · exact h3 h
      simp [step, openGates, gate_closed s r hc, hn]
    · have hr : r = true := by
        cases r
        · exact absurd (Or.inl rfl) hc
        · rfl
      have hl : s.LED_state ≠ 0xff := fun e => hc (Or.inr (Or.inr e))
      have hw : s.state ≠ STATE_WAIT := fun e => hc (Or.inr (Or.inl e))
      subst hr
      obtain ⟨h1, h2, h3, h4, h5, h6, _⟩ := hi
      simp only [step, openGates, gate_send s hs hl, reportBytes, h1, h2, h3, h4, h5, h6]
      simp [hw, hl]
  | usbWrite d =>
    simp [step, openGates, (usbFunctionWrite_frame s d).2.2.2.2.2.2.2]
  | usbSetup rq =>
    simp only [step, openGates, usbFunctionSetup]
    split
    · split
      · simp
      · split
        · simp
        · split
          · simp
          · split <;> simp
    · simp

theorem openGates_cons (s : State) (op : Op) (ops : List Op) :
    openGates s (op :: ops) = openGates s [op] + openGates (step s op) ops := by
  cases op <;> simp [openGates]

theorem phase_sent (ops : List Op) :
    ∀ s : State, Inv s → s.state = STATE_SEND_KEY →
      phaseHolds STATE_SEND_KEY s ops = true →
      (run s ops).state = STATE_SEND_KEY ∧
      (run s ops).sent
        = s.sent ++ List.replicate (openGates s ops) [OneKey.MOD_SHIFT_LEFT, 0, KEY_W, 0, 0, 0, 0, 0] := by
  induction ops with
  | nil => intro s _ hs _; exact ⟨hs, by simp [run, openGates]⟩
  | cons op ops ih =>
    intro s hi hs hp
    simp only [phaseHolds, Bool.and_eq_true, decide_eq_true_eq] at hp
    obtain ⟨e1, e2⟩ := ih (step s op) (inv_step s op hi) hp.1 hp.2
    rw [run_cons]
    refine ⟨e1, ?_⟩
    rw [e2, step_sent_send s op hi hs, List.append_assoc, ← List.replicate_add,
      openGates_cons s op ops]

theorem exit_sent (s : State) (op : Op) (hi : Inv s) (hs : s.state = STATE_SEND_KEY)
    (hx : (step s op).state = STATE_RELEASE_KEY) : (step s op).sent = s.sent := by
  have h := step_sent_send s op hi hs
  cases op with
  | gate r =>
    by_cases hc : r = false ∨ s.state = STATE_WAIT ∨ s.LED_state = 0xff
    · simp only [step, gate_closed s r hc]
    · have hr : r = true := by
        cases r
        · exact absurd (Or.inl rfl) hc
        · rfl
      have hl : s.LED_state ≠ 0xff := fun e => hc (Or.inr (Or.inr e))
      subst hr
      simp only [step, gate_send s hs hl] at hx
      rw [hs] at hx
      exact absurd hx (by decide)
  | tick p => simpa [openGates] using h
  | debounce => simpa [openGates] using h
  | usbWrite d => simpa [openGates] using h
  | usbSetup rq => simpa [openGates] using h

/-- C11, as stated, fails: with the host LED state still unknown, a second
debounced press takes `state` from `STATE_SEND_KEY` to `STATE_RELEASE_KEY`
although no report was handed to the transport during the SendKey phase. -/
theorem send_phase_without_output :
    (run (boot 0x10) [Op.tick 0, Op.tick 0, Op.tick 0, Op.tick 0]).state = STATE_WAIT ∧
    (run (boot 0x10) [Op.tick 0, Op.tick 0, Op.tick 0, Op.tick 0, Op.debounce]).state
      = STATE_SEND_KEY ∧
    (run (boot 0x10) pressTwiceUnknown).state = STATE_SEND_KEY ∧
    (run (boot 0x10) (pressTwiceUnknown ++ [Op.debounce])).state = STATE_RELEASE_KEY ∧
    (run (boot 0x10) (pressTwiceUnknown ++ [Op.debounce])).sent = [] := by
  decide

/-- C11 (amended): in an execution from boot, over a stretch in which `state`
stays `STATE_SEND_KEY` and at whose end an operation changes `state` to
`STATE_RELEASE_KEY`, the reports handed to the transport are exactly one report
carrying (`MOD_SHIFT_LEFT`, `KEY_W`) per gate evaluation of the stretch that
found the transport ready and `LED_state != 0xff`: at least one if there was
such an evaluation, none otherwise. -/
theorem send_phase_output (pin : Nat) (ops1 ops2 : List Op) (op : Op)
    (hs : (run (boot pin) ops1).state = STATE_SEND_KEY)
    (hstay : phaseHolds STATE_SEND_KEY (run (boot pin) ops1) ops2 = true)
    (hexit : (step (run (run (boot pin) ops1) ops2) op).state = STATE_RELEASE_KEY) :
    (step (run (run (boot pin) ops1) ops2) op).sent
      = (run (boot pin) ops1).sent ++
          List.replicate (openGates (run (boot pin) ops1) ops2)
            [OneKey.MOD_SHIFT_LEFT, 0, KEY_W, 0, 0, 0, 0, 0] := by
  have hi := inv_run ops1 (boot pin) (inv_boot pin)
  obtain ⟨e1, e2⟩ := phase_sent ops2 _ hi hs hstay
  rw [exit_sent _ op (inv_run ops2 _ hi) e1 hexit, e2]

/-- Witness of `send_phase_output`: a SendKey phase with one passing gate
evaluation, ended by a second debounced press. -/
theorem send_phase_output_witness :
    (step (run (run (boot 0x10)
        [Op.usbWrite [0], Op.tick 0, Op.tick 0, Op.tick 0, Op.tick 0, Op.debounce])
        [Op.gate false, Op.gate true, Op.tick 0x10, Op.tick 0x10, Op.tick 0x10, Op.tick 0x10,
          Op.tick 0, Op.tick 0, Op.tick 0, Op.tick 0]) Op.debounce).sent
      = [] ++ List.replicate 1 [OneKey.MOD_SHIFT_LEFT, 0, KEY_W, 0, 0, 0, 0, 0] :=
  send_phase_output 0x10
    [Op.usbWrite [0], Op.tick 0, Op.tick 0, Op.tick 0, Op.tick 0, Op.debounce]
    [Op.gate false, Op.gate true, Op.tick 0x10, Op.tick 0x10, Op.tick 0x10, Op.tick 0x10,
      Op.tick 0, Op.tick 0, Op.tick 0, Op.tick 0]
    Op.debounce (by decide) (by decide) (by decide)

/-! ## The default branch of the gate -/

theorem gate_stray (s : State) (hw : s.state ≠ STATE_WAIT) (hk : s.state ≠ STATE_SEND_KEY)
    (hr : s.state ≠ STATE_RELEASE_KEY) (hl : s.LED_state ≠ 0xff) :
    gate s true =
      { s with state := STATE_WAIT, sent := s.sent ++ [reportBytes s.keyboard_report] } := by
  simp [gate, hw, hk, hr, hl, usbSetInterrupt]

/-- C12, as stated, fails: with an unrecognised `state` value, the transport
ready and `LED_state` known, the gate sets `state = STATE_WAIT` but still hands
a report to the transport. -/
theorem gate_default_sends :
    strayPhase.state ≠ STATE_WAIT ∧ strayPhase.state ≠ STATE_SEND_KEY ∧
    strayPhase.state ≠ STATE_RELEASE_KEY ∧ strayPhase.LED_state ≠ 0xff ∧
    strayPhase.sent = [] ∧
    (gate strayPhase true).state = STATE_WAIT ∧
    (gate strayPhase true).sent = [[0, 0, 0, 0, 0, 0, 0, 0]] := by
  decide

/-- C12 (amended): when the transport is ready, `LED_state != 0xff` and `state`
holds an unrecognised value, one gate evaluation sets `state = STATE_WAIT`,
builds nothing (`keyboard_report` is unchanged) and hands exactly one report,
the unchanged `keyboard_report`, to the transport. -/
theorem gate_default (s : State) (hw : s.state ≠ STATE_WAIT) (hk : s.state ≠ STATE_SEND_KEY)
    (hr : s.state ≠ STATE_RELEASE_KEY) (hl : s.LED_state ≠ 0xff) :
    (gate s true).state = STATE_WAIT ∧
    (gate s true).keyboard_report = s.keyboard_report ∧
    (gate s true).sent = s.sent ++ [reportBytes s.keyboard_report] ∧
    (reportBytes s.keyboard_report).length = 8 := by
  rw [gate_stray s hw hk hr hl]
  exact ⟨rfl, rfl, rfl, rfl⟩

/-- Witness of `gate_default`: the value 3 in `state`. -/
theorem gate_default_witness :
    (gate strayPhase true).state = STATE_WAIT ∧
    (gate strayPhase true).sent = strayPhase.sent ++ [reportBytes strayPhase.keyboard_report] :=
  have h := gate_default strayPhase (by decide) (by decide) (by decide) (by decide)
  ⟨h.1, h.2.2.1⟩

/-! ## The USB callbacks -/

theorem led_bits :
    (1 <<< LED0 : Nat).testBit LED0 = true ∧ (1 <<< LED0 : Nat).testBit LED1 = false ∧
    (1 <<< LED1 : Nat).testBit LED1 = true ∧ (1 <<< LED1 : Nat).testBit LED0 = false := by
  decide

theorem and_not8_testBit (x m b : Nat) (hb : b < 8) :
    (x &&& not8 m).testBit b = (x.testBit b && !m.testBit b) := by
  simp only [Nat.testBit_and, not8_testBit, hb, decide_True, Bool.true_and]

theorem port_bits (x : Nat) :
    (x &&& not8 (1 <<< LED0)).testBit LED0 = false ∧
    (x &&& not8 (1 <<< LED0)).testBit LED1 = x.testBit LED1 ∧
    (x ||| 1 <<< LED0).testBit LED0 = true ∧
    (x ||| 1 <<< LED0).testBit LED1 = x.testBit LED1 ∧
    (x &&& not8 (1 <<< LED1)).testBit LED1 = false ∧
    (x &&& not8 (1 <<< LED1)).testBit LED0 = x.testBit LED0 ∧
    (x ||| 1 <<< LED1).testBit LED1 = true ∧
    (x ||| 1 <<< LED1).testBit LED0 = x.testBit LED0 := by
  obtain ⟨b0, b1, b2, b3⟩ := led_bits
  have l0 : LED0 < 8 := by decide
  have l1 : LED1 < 8 := by decide
  refine ⟨?_, ?_, ?_, ?_, ?_, ?_, ?_, ?_⟩
  · rw [and_not8_testBit _ _ _ l0, b0]; simp
  · rw [and_not8_testBit _ _ _ l1, b1]; simp
  · rw [Nat.testBit_or, b0]; simp
  · rw [Nat.testBit_or, b1]; simp
  · rw [and_not8_testBit _ _ _ l1, b2]; simp
  · rw [and_not8_testBit _ _ _ l0, b3]; simp
  · rw [Nat.testBit_or, b2]; simp
  · rw [Nat.testBit_or, b3]; simp

theorem invPort_boot (pin : Nat) : InvPort (boot pin) := by
  refine ⟨?_, Or.inl rfl⟩
  have h : (0 ||| 1 <<< KEY0 : Nat).testBit LED0 = false := by decide
  show ((0 ||| 1 <<< KEY0 : Nat).testBit LED0 = true ↔ (0 : Nat) = 1)
  rw [h]
  simp

theorem invPort_debounce (s : State) (h : InvPort s) : InvPort (debounce s) := by
  obtain ⟨p0, p1, p2, p3, _, _, _, _⟩ := port_bits s.PORTB
  cases hk : s.key_press.testBit KEY0 with
  | false => rw [debounce_idle s hk]; exact h
  | true =>
    rw [debounce_press s hk]
    obtain ⟨_, h2⟩ := h
    split
    · refine ⟨?_, ?_⟩
      · show ((s.PORTB &&& not8 (1 <<< LED0)).testBit LED0 = true ↔ (0 : Nat) = 1)
        rw [p0]; simp
      · show s.LED_state = 0xff ∨
          ((s.PORTB &&& not8 (1 <<< LED0)).testBit LED1 = true ↔ s.LED_state &&& NUM_LOCK ≠ 0)
        rw [p1]; exact h2
    · refine ⟨?_, ?_⟩
      · show ((s.PORTB ||| 1 <<< LED0).testBit LED0 = true ↔ (1 : Nat) = 1)
        rw [p2]; simp
      · show s.LED_state = 0xff ∨
          ((s.PORTB ||| 1 <<< LED0).testBit LED1 = true ↔ s.LED_state &&& NUM_LOCK ≠ 0)
        rw [p3]; exact h2

theorem invPort_usbFunctionWrite (s : State) (d : List Nat) (h : InvPort s) :
    InvPort (usbFunctionWrite s d).1 := by
  obtain ⟨_, _, _, _, p4, p5, p6, p7⟩ := port_bits s.PORTB
  obtain ⟨h1, h2⟩ := h
  unfold usbFunctionWrite
  simp only
  split
  · exact ⟨h1, h2⟩
  · split
    · rename_i hn
      refine ⟨?_, Or.inr ?_⟩
      · show ((s.PORTB ||| 1 <<< LED1).testBit LED0 = true ↔ s.run_state = 1)
        rw [p7]; exact h1
      · show ((s.PORTB ||| 1 <<< LED1).testBit LED1 = true ↔ d.headD 0 % 256 &&& NUM_LOCK ≠ 0)
        rw [p6]; exact ⟨fun _ => hn, fun _ => rfl⟩
    · rename_i hn
      refine ⟨?_, Or.inr ?_⟩
      · show ((s.PORTB &&& not8 (1 <<< LED1)).testBit LED0 = true ↔ s.run_state = 1)
        rw [p5]; exact h1
      · show ((s.PORTB &&& not8 (1 <<< LED1)).testBit LED1 = true ↔
          d.headD 0 % 256 &&& NUM_LOCK ≠ 0)
        rw [p4]
        exact ⟨fun h => Bool.noConfusion h, fun h => absurd h hn⟩

theorem invPort_step (s : State) (op : Op) (h : InvPort s) : InvPort (step s op) := by
  cases op with
  | tick p => exact h
  | debounce => exact invPort_debounce s h
  | gate r =>
    simp only [step, gate, buildReport, usbSetInterrupt]
    split
    · split
      · exact h
      · split <;> exact h
    · exact h
  | usbWrite d => exact invPort_usbFunctionWrite s d h
  | usbSetup rq =>
    simp only [step, usbFunctionSetup]
    split
    · split
      · exact h
      · split
        · exact h
        · split
          · exact h
          · split <;> exact h
    · exact h

theorem invPort_run (ops : List Op) : ∀ s : State, InvPort s → InvPort (run s ops) := by
  induction ops with
  | nil => intro s h; exact h
  | cons op ops ih => intro s h; exact ih (step s op) (invPort_step s op h)

theorem invPort_of_reachable (s : State) (h : Reachable s) : InvPort s := by
  obtain ⟨pin, ops, rfl⟩ := h
  exact invPort_run ops (boot pin) (invPort_boot pin)

theorem usbFunctionSetup_get_report (s : State) (rq : usbRequest_t)
    (hc : rq.bmRequestType &&& USBRQ_TYPE_MASK = USBRQ_TYPE_CLASS)
    (hb : rq.bRequest = USBRQ_HID_GET_REPORT) :
    usbFunctionSetup s rq =
      ({ s with
          usbMsgPtr := MsgPtr.keyboard_report
          keyboard_report := { s.keyboard_report with modifier := 0, keycode0 := 0 } },
        8) := by
  simp [usbFunctionSetup, hc, hb]

theorem usbFunctionSetup_other (s : State) (rq : usbRequest_t)
    (h : ¬ (rq.bmRequestType &&& USBRQ_TYPE_MASK = USBRQ_TYPE_CLASS ∧
      rq.bRequest = USBRQ_HID_GET_REPORT)) :
    (usbFunctionSetup s rq).1.keyboard_report = s.keyboard_report := by
  unfold usbFunctionSetup
  split
  · rename_i hc
    split
    · rename_i hb; exact absurd ⟨hc, hb⟩ h
    · split
      · rfl
      · split
        · rfl
        · split <;> rfl
  · rfl

/-- C13 (GET_REPORT answers with an idle report): in every state reachable from
boot, whatever the value of `state`, `usbFunctionSetup` on a class request with
`bRequest = USBRQ_HID_GET_REPORT` returns length 8, points the transport at
`keyboard_report`, and all 8 bytes of that report are zero. -/
theorem get_report_idle (s : State) (hr : Reachable s) (rq : usbRequest_t)
    (hc : rq.bmRequestType &&& USBRQ_TYPE_MASK = USBRQ_TYPE_CLASS)
    (hb : rq.bRequest = USBRQ_HID_GET_REPORT) :
    (usbFunctionSetup s rq).2 = 8 ∧
    (usbFunctionSetup s rq).1.usbMsgPtr = MsgPtr.keyboard_report ∧
    (reportBytes (usbFunctionSetup s rq).1.keyboard_report).length = 8 ∧
    reportBytes (usbFunctionSetup s rq).1.keyboard_report = [0, 0, 0, 0, 0, 0, 0, 0] := by
  obtain ⟨h1, h2, h3, h4, h5, h6, _⟩ := inv_of_reachable s hr
  rw [usbFunctionSetup_get_report s rq hc hb]
  refine ⟨rfl, rfl, rfl, ?_⟩
  simp only [reportBytes, h1, h2, h3, h4, h5, h6]

/-- Witness of `get_report_idle`: the request arrives in the SendKey phase,
after the key report was built and sent. -/
theorem get_report_idle_witness :
    reportBytes activeHeld.keyboard_report = [OneKey.MOD_SHIFT_LEFT, 0, KEY_W, 0, 0, 0, 0, 0] ∧
    (usbFunctionSetup activeHeld getReportRequest).2 = 8 ∧
    reportBytes (usbFunctionSetup activeHeld getReportRequest).1.keyboard_report
      = [0, 0, 0, 0, 0, 0, 0, 0] :=
  have h := get_report_idle activeHeld
    ⟨0x10, [Op.usbWrite [0], Op.tick 0, Op.tick 0, Op.tick 0, Op.tick 0, Op.debounce,
      Op.gate true], rfl⟩
    getReportRequest (by decide) (by decide)
  ⟨by decide, h.1, h.2.2.2⟩

/-- C15 (mode/phase/indicator invariant): in every state reachable from boot,
`state` is one of `STATE_WAIT`, `STATE_SEND_KEY`, `STATE_RELEASE_KEY`,
`run_state` is 0 or 1, and `run_state = 1`, `state = STATE_SEND_KEY` and "the
`LED0` port bit is high" are equivalent. -/
theorem mode_phase_indicator (pin : Nat) (ops : List Op) :
    ((run (boot pin) ops).state = STATE_WAIT ∨ (run (boot pin) ops).state = STATE_SEND_KEY ∨
      (run (boot pin) ops).state = STATE_RELEASE_KEY) ∧
    ((run (boot pin) ops).run_state = 0 ∨ (run (boot pin) ops).run_state = 1) ∧
    ((run (boot pin) ops).run_state = 1 ↔ (run (boot pin) ops).state = STATE_SEND_KEY) ∧
    ((run (boot pin) ops).state = STATE_SEND_KEY ↔
      (run (boot pin) ops).PORTB.testBit LED0 = true) ∧
    ((run (boot pin) ops).PORTB.testBit LED0 = true ↔ (run (boot pin) ops).run_state = 1) := by
  obtain ⟨_, _, _, _, _, _, h7⟩ := inv_run ops (boot pin) (inv_boot pin)
  obtain ⟨hp, _⟩ := invPort_run ops (boot pin) (invPort_boot pin)
  generalize run (boot pin) ops = s at *
  have n01 : (0 : Nat) ≠ 1 := by decide
  have w1 : STATE_WAIT ≠ STATE_SEND_KEY := by decide
  have r1 : STATE_RELEASE_KEY ≠ STATE_SEND_KEY := by decide
  rcases h7 with ⟨hr, hw | hw⟩ | ⟨hr, hw⟩
  · refine ⟨Or.inl hw, Or.inl hr, ?_, ?_, hp⟩
    · rw [hr, hw]; exact ⟨fun h => absurd h n01, fun h => absurd h w1⟩
    · rw [hp, hr, hw]; exact ⟨fun h => absurd h w1, fun h => absurd h n01⟩
  · refine ⟨Or.inr (Or.inr hw), Or.inl hr, ?_, ?_, hp⟩
    · rw [hr, hw]; exact ⟨fun h => absurd h n01, fun h => absurd h r1⟩
    · rw [hp, hr, hw]; exact ⟨fun h => absurd h r1, fun h => absurd h n01⟩
  · refine ⟨Or.inr (Or.inl hw), Or.inr hr, ?_, ?_, hp⟩
    · rw [hr, hw]; exact ⟨fun _ => rfl, fun _ => rfl⟩
    · rw [hp, hr, hw]; exact ⟨fun _ => rfl, fun _ => rfl⟩

theorem led1_mask_testBit (b : Nat) : (1 <<< LED1).testBit b = decide (LED1 = b) := by
  have : (1 <<< LED1 : Nat) = 2 ^ LED1 := by simp [Nat.shiftLeft_eq]
  rw [this, Nat.testBit_two_pow]

theorem usbFunctionWrite_ret (s : State) (d : List Nat) : (usbFunctionWrite s d).2 = 1 := by
  unfold usbFunctionWrite
  simp only
  split
  · rfl
  · split <;> rfl

theorem usbFunctionWrite_port (s : State) (d : List Nat) (b : Nat) (hb : b < 8)
    (hne : b ≠ LED1) : (usbFunctionWrite s d).1.PORTB.testBit b = s.PORTB.testBit b := by
  have hm : (1 <<< LED1 : Nat).testBit b = false := by
    rw [led1_mask_testBit]
    simp only [decide_eq_false_iff_not]
    exact fun e => hne e.symm
  unfold usbFunctionWrite
  simp only
  split
  · rfl
  · split
    · show (s.PORTB ||| 1 <<< LED1).testBit b = s.PORTB.testBit b
      rw [Nat.testBit_or, hm, Bool.or_false]
    · show (s.PORTB &&& not8 (1 <<< LED1)).testBit b = s.PORTB.testBit b
      rw [and_not8_testBit _ _ _ hb, hm, Bool.not_false, Bool.and_true]

theorem usbFunctionWrite_changed (s : State) (d : List Nat)
    (h : d.headD 0 % 256 ≠ s.LED_state) :
    (usbFunctionWrite s d).1.PORTB.testBit LED1 = true ↔ d.headD 0 % 256 &&& NUM_LOCK ≠ 0 := by
  obtain ⟨_, _, _, _, p4, _, p6, _⟩ := port_bits s.PORTB
  unfold usbFunctionWrite
  simp only [h, if_false]
  split
  · rename_i hn
    show (s.PORTB ||| 1 <<< LED1).testBit LED1 = true ↔ _
    rw [p6]; exact ⟨fun _ => hn, fun _ => rfl⟩
  · rename_i hn
    show (s.PORTB &&& not8 (1 <<< LED1)).testBit LED1 = true ↔ _
    rw [p4]; exact ⟨fun h => Bool.noConfusion h, fun h => absurd h hn⟩

/-- C16, as stated, fails: at boot a first output report whose byte is `0xff`
equals the sentinel, so `usbFunctionWrite` returns early and the `LED1` port bit
stays low although `data[0] AND NUM_LOCK` is non-zero. -/
theorem write_sentinel_keeps_led1 :
    (usbFunctionWrite (boot 0x10) [0xff]).1.LED_state = 0xff ∧
    (usbFunctionWrite (boot 0x10) [0xff]).2 = 1 ∧
    (usbFunctionWrite (boot 0x10) [0xff]).1.PORTB.testBit LED1 = false ∧
    0xff &&& NUM_LOCK ≠ 0 := by
  decide

theorem usbFunctionWrite_same (s : State) (d : List Nat)
    (h : d.headD 0 % 256 = s.LED_state) : usbFunctionWrite s d = (s, 1) := by
  unfold usbFunctionWrite
  simp only [h, if_true]

/-- While `LED_state` is `0xff` and the `LED1` port bit is low, a byte `0xff`
leaves the bit low although its `NUM_LOCK` flag is set. -/
theorem usbFunctionWrite_sentinel_low (s : State) (rest : List Nat)
    (hs : s.LED_state = 0xff) (hp : s.PORTB.testBit LED1 = false) :
    (usbFunctionWrite s (0xff :: rest)).1.PORTB.testBit LED1 = false ∧
    0xff &&& NUM_LOCK ≠ 0 := by
  rw [usbFunctionWrite_same s (0xff :: rest) (by rw [hs]; rfl)]
  exact ⟨hp, by decide⟩

/-- C16 (amended): in a state reachable from boot, for a received buffer with
first byte `data[0]`, unless `data[0]` is `0xff` while `LED_state` is `0xff` and
the `LED1` port bit is low (no output report has taken effect yet): after
`usbFunctionWrite(data, len)` the stored `LED_state` equals `data[0]`, the
return value is 1, the `LED1` port bit is high if and only if
`data[0] AND NUM_LOCK` is non-zero, and every other port bit, `run_state`,
`state`, `keyboard_report` and the debounce variables are unchanged. -/
theorem usbFunctionWrite_contract (s : State) (hr : Reachable s) (d0 : Nat)
    (rest : List Nat) (hd : d0 < 256)
    (hne : d0 ≠ 0xff ∨ s.LED_state ≠ 0xff ∨ s.PORTB.testBit LED1 = true) :
    (usbFunctionWrite s (d0 :: rest)).1.LED_state = d0 ∧
    (usbFunctionWrite s (d0 :: rest)).2 = 1 ∧
    ((usbFunctionWrite s (d0 :: rest)).1.PORTB.testBit LED1 = true ↔ d0 &&& NUM_LOCK ≠ 0) ∧
    (∀ b, b < 8 → b ≠ LED1 →
      (usbFunctionWrite s (d0 :: rest)).1.PORTB.testBit b = s.PORTB.testBit b) ∧
    (usbFunctionWrite s (d0 :: rest)).1.run_state = s.run_state ∧
    (usbFunctionWrite s (d0 :: rest)).1.state = s.state ∧
    (usbFunctionWrite s (d0 :: rest)).1.keyboard_report = s.keyboard_report ∧
    (usbFunctionWrite s (d0 :: rest)).1.key_state = s.key_state ∧
    (usbFunctionWrite s (d0 :: rest)).1.key_press = s.key_press ∧
    (usbFunctionWrite s (d0 :: rest)).1.ct0 = s.ct0 ∧
    (usbFunctionWrite s (d0 :: rest)).1.ct1 = s.ct1 := by
  obtain ⟨f1, f2, f3, f4, f5, f6, f7, _⟩ := usbFunctionWrite_frame s (d0 :: rest)
  have hmod : (d0 :: rest).headD 0 % 256 = d0 := by
    simp only [List.headD_cons]
    exact Nat.mod_eq_of_lt hd
  have hled : (usbFunctionWrite s (d0 :: rest)).1.LED_state = d0 := by
    rw [usbFunctionWrite_LED_state, hmod]
  have hport : (usbFunctionWrite s (d0 :: rest)).1.PORTB.testBit LED1 = true ↔
      d0 &&& NUM_LOCK ≠ 0 := by
    by_cases hsame : (d0 :: rest).headD 0 % 256 = s.LED_state
    · -- the byte equals `LED_state`: early return, the port is as it was
      rw [usbFunctionWrite_same s (d0 :: rest) hsame]
      rw [hmod] at hsame
      rcases (invPort_of_reachable s hr).2 with h255 | hiff
      · have hd255 : d0 = 0xff := hsame.trans h255
        rcases hne with h | h | h
        · exact absurd hd255 h
        · exact absurd h255 h
        · rw [hd255]
          exact ⟨fun _ => by decide, fun _ => h⟩
      · rw [hsame]; exact hiff
    · have hc := usbFunctionWrite_changed s (d0 :: rest) hsame
      rw [hmod] at hc
      exact hc
  exact ⟨hled, usbFunctionWrite_ret _ _, hport,
    fun b hb hn => usbFunctionWrite_port s _ b hb hn, f5, f6, f7, f1, f2, f3, f4⟩

/-- Witness of `usbFunctionWrite_contract`: the host has sent the byte 1 and then
`0xff`, so `LED_state` is `0xff` with the `LED1` port bit high, and sends `0xff`
again. -/
theorem usbFunctionWrite_contract_witness :
    (run (boot 0x10) [Op.usbWrite [1], Op.usbWrite [0xff]]).LED_state = 0xff ∧
    (usbFunctionWrite (run (boot 0x10) [Op.usbWrite [1], Op.usbWrite [0xff]])
      [0xff]).1.LED_state = 0xff ∧
    ((usbFunctionWrite (run (boot 0x10) [Op.usbWrite [1], Op.usbWrite [0xff]])
      [0xff]).1.PORTB.testBit LED1 = true ↔ 0xff &&& NUM_LOCK ≠ 0) :=
  have h := usbFunctionWrite_contract (run (boot 0x10) [Op.usbWrite [1], Op.usbWrite [0xff]])
    ⟨0x10, [Op.usbWrite [1], Op.usbWrite [0xff]], rfl⟩ 0xff [] (by decide)
    (Or.inr (Or.inr (by decide)))
  ⟨by decide, h.1, h.2.2.1⟩

theorem step_LED_state (s : State) (op : Op) (acc : Option Nat)
    (h : s.LED_state = acc.getD 0xff) :
    (step s op).LED_state = (ledByteAfter acc op).getD 0xff := by
  cases op with
  | tick p => exact h
  | debounce =>
    cases hb : s.key_press.testBit KEY0 with
    | false => simp only [step, debounce_idle s hb, ledByteAfter]; exact h
    | true =>
      simp only [step, debounce_press s hb, ledByteAfter]
      split <;> exact h
  | gate r =>
    simp only [step, gate, buildReport, usbSetInterrupt, ledByteAfter]
    split
    · split
      · exact h
      · split <;> exact h
    · exact h
  | usbWrite d =>
    simp only [step, ledByteAfter, usbFunctionWrite_LED_state, Option.getD_some]
  | usbSetup rq =>
    simp only [step, usbFunctionSetup, ledByteAfter]
    split
    · split
      · exact h
      · split
        · exact h
        · split
          · exact h
          · split <;> exact h
    · exact h

theorem run_LED_state (ops : List Op) :
    ∀ (s : State) (acc : Option Nat), s.LED_state = acc.getD 0xff →
      (run s ops).LED_state = (ops.foldl ledByteAfter acc).getD 0xff := by
  induction ops with
  | nil => intro s acc h; exact h
  | cons op ops ih =>
    intro s acc h
    rw [run_cons, List.foldl_cons]
    exact ih (step s op) (ledByteAfter acc op) (step_LED_state s op acc h)

theorem ledByteAfter_isSome (ops : List Op) :
    ∀ acc : Option Nat,
      (ops.foldl ledByteAfter acc).isSome = true ↔
        (acc.isSome = true ∨ ∃ data, Op.usbWrite data ∈ ops) := by
  induction ops with
  | nil => intro acc; simp
  | cons op ops ih =>
    intro acc
    rw [List.foldl_cons, ih]
    cases op with
    | usbWrite d =>
      simp only [ledByteAfter, Option.isSome_some, true_or, true_iff]
      exact Or.inr ⟨d, List.mem_cons_self _ _⟩
    | tick p => simp [ledByteAfter]
    | debounce => simp [ledByteAfter]
    | gate r => simp [ledByteAfter]
    | usbSetup rq => simp [ledByteAfter]

/-- C17, as stated, fails: after the host has delivered one output report whose
byte is `0xff`, `LED_state` still equals the sentinel. -/
theorem sentinel_after_contact :
    (usbFunctionWrite (boot 0x10) [0xff]).2 = 1 ∧
    (run (boot 0x10) [Op.usbWrite [0xff]]).LED_state = 0xff ∧
    (gate (run (boot 0x10)
      [Op.usbWrite [0xff], Op.tick 0, Op.tick 0, Op.tick 0, Op.tick 0, Op.debounce]) true).sent
      = [] := by
  decide

/-- C17 (amended): in every execution from boot, `LED_state` equals the first
byte of the most recent `usbFunctionWrite` call, or `0xff` if there was none;
so `LED_state` differs from the sentinel `0xff` if and only if the host has
delivered at least one output report and the byte of the most recent one is not
`0xff`. -/
theorem led_state_last_write (pin : Nat) (ops : List Op) :
    (run (boot pin) ops).LED_state = (lastLedByte ops).getD 0xff ∧
    ((lastLedByte ops).isSome = true ↔ ∃ data, Op.usbWrite data ∈ ops) ∧
    ((run (boot pin) ops).LED_state ≠ 0xff ↔
      ∃ d, lastLedByte ops = some d ∧ d ≠ 0xff) := by
  have h1 : (run (boot pin) ops).LED_state = (lastLedByte ops).getD 0xff :=
    run_LED_state ops (boot pin) none rfl
  refine ⟨h1, ?_, ?_⟩
  · have := ledByteAfter_isSome ops none
    simpa [lastLedByte] using this
  · rw [h1]
    cases lastLedByte ops with
    | none => simp
    | some d => simp

/-! ## Ownership of the outgoing report -/

/-- C18, as stated, fails: a class GET_REPORT request in the SendKey phase
overwrites the modifier and first keycode of the report the gate built. -/
theorem get_report_modifies_report :
    reportBytes activeHeld.keyboard_report = [OneKey.MOD_SHIFT_LEFT, 0, KEY_W, 0, 0, 0, 0, 0] ∧
    reportBytes (usbFunctionSetup activeHeld getReportRequest).1.keyboard_report
      = [0, 0, 0, 0, 0, 0, 0, 0] := by
  decide

/-- C18 (amended): `keyboard_report` is the same after a sampler tick,
`get_key_press`, `debounce()`, `usbFunctionWrite` and `usbFunctionSetup` with
any request other than a class GET_REPORT as before it; a class GET_REPORT
request sets the modifier and `keycode[0]` to zero and leaves the other six
bytes. -/
theorem report_frame (s : State) :
    (∀ p, (TIMER0_OVF_vect s p).keyboard_report = s.keyboard_report) ∧
    (∀ m, (get_key_press s m).1.keyboard_report = s.keyboard_report) ∧
    (debounce s).keyboard_report = s.keyboard_report ∧
    (∀ d, (usbFunctionWrite s d).1.keyboard_report = s.keyboard_report) ∧
    (∀ rq, ¬ (rq.bmRequestType &&& USBRQ_TYPE_MASK = USBRQ_TYPE_CLASS ∧
        rq.bRequest = USBRQ_HID_GET_REPORT) →
      (usbFunctionSetup s rq).1.keyboard_report = s.keyboard_report) ∧
    (∀ rq, rq.bmRequestType &&& USBRQ_TYPE_MASK = USBRQ_TYPE_CLASS →
      rq.bRequest = USBRQ_HID_GET_REPORT →
      (usbFunctionSetup s rq).1.keyboard_report
        = { s.keyboard_report with modifier := 0, keycode0 := 0 }) := by
  refine ⟨fun _ => rfl, fun _ => rfl, ?_, fun d => (usbFunctionWrite_frame s d).2.2.2.2.2.2.1,
    fun rq h => usbFunctionSetup_other s rq h, ?_⟩
  · cases hb : s.key_press.testBit KEY0 with
    | false => rw [debounce_idle s hb]
    | true =>
      rw [debounce_press s hb]
      split <;> rfl
  · intro rq hc hb
    rw [usbFunctionSetup_get_report s rq hc hb]

/-! ## The sampler: pending mask, debounce window, counter formulas -/

/-- C14 (pending mask records press edges only): one sampler tick yields
`key_press' = key_press OR (key_state' AND NOT key_state)`; a bit the tick newly
sets in `key_press` is a bit of `key_state` that went from 0 to 1 in that tick,
and a bit of `key_state` that the tick leaves or makes 0 sets no pending bit. -/
theorem pending_press_edges_only (s : State) (p : Nat) :
    (TIMER0_OVF_vect s p).key_press
      = s.key_press ||| ((TIMER0_OVF_vect s p).key_state &&& not8 s.key_state) ∧
    (∀ b, (TIMER0_OVF_vect s p).key_press.testBit b = true → s.key_press.testBit b = false →
      s.key_state.testBit b = false ∧ (TIMER0_OVF_vect s p).key_state.testBit b = true) ∧
    (∀ b, (TIMER0_OVF_vect s p).key_state.testBit b = false →
      (TIMER0_OVF_vect s p).key_press.testBit b = s.key_press.testBit b) := by
  have hbit : ∀ b, (TIMER0_OVF_vect s p).key_press.testBit b
      = (s.key_press.testBit b ||
          ((TIMER0_OVF_vect s p).key_state.testBit b &&
            (decide (b < 8) && !s.key_state.testBit b))) := by
    intro b
    by_cases hb : b < 8
    · rw [tick_key_press_bit s p b hb]
      simp only [hb, decide_True, Bool.true_and]
      cases s.key_press.testBit b <;> cases s.key_state.testBit b <;>
        cases (TIMER0_OVF_vect s p).key_state.testBit b <;> rfl
    · rw [(tick_high s p b (by omega)).2]
      simp only [hb, decide_False, Bool.false_and, Bool.and_false, Bool.or_false]
  refine ⟨?_, ?_, ?_⟩
  · apply Nat.eq_of_testBit_eq
    intro b
    rw [hbit b, Nat.testBit_or, Nat.testBit_and, not8_testBit]
  · intro b h1 h2
    rw [hbit b, h2] at h1
    simp only [Bool.false_or, Bool.and_eq_true, Bool.not_eq_true', decide_eq_true_eq] at h1
    exact ⟨h1.2.2, h1.1⟩
  · intro b h1
    rw [hbit b, h1]
    simp

theorem differs_true (ks p : Bool) (h : differs ks p = true) : p = ks := by
  cases ks <;> cases p <;> first | rfl | exact absurd h (by decide)

theorem line_window (ks kp : Bool) :
    lineTicks { ks := ks, kp := kp, c0 := true, c1 := true } (List.replicate 4 ks)
      = { ks := !ks, kp := kp || !ks, c0 := true, c1 := true } := by
  cases ks <;> cases kp <;> rfl

theorem line_window_before (ks kp : Bool) (n : Nat) (hn : n < 4) :
    (lineTicks { ks := ks, kp := kp, c0 := true, c1 := true } (List.replicate n ks)).ks = ks ∧
    (lineTicks { ks := ks, kp := kp, c0 := true, c1 := true } (List.replicate n ks)).kp = kp := by
  have h : n = 0 ∨ n = 1 ∨ n = 2 ∨ n = 3 := by omega
  rcases h with h | h | h | h <;> subst h <;> cases ks <;> cases kp <;> exact ⟨rfl, rfl⟩

theorem no_run_of_agreeing (l : List Bool) (h : ∀ x ∈ l, x = false) :
    ¬ (List.replicate 4 true <:+: l) := by
  intro hin
  have hm : true ∈ l := hin.subset (by simp)
  exact Bool.noConfusion (h true hm)

theorem steady_after (s : State) (b : Nat) (hb : b < 8) (v : Bool)
    (hk : s.key_state.testBit b = v)
    (h0 : s.ct0.testBit b = true) (h1 : s.ct1.testBit b = true)
    (qs : List Nat) (hqs : ∀ q ∈ qs, differs v (q.testBit b) = false) (n : Nat) :
    (ticks s (qs.take n)).key_state.testBit b = v ∧
    (ticks s (qs.take n)).key_press.testBit b = s.key_press.testBit b := by
  have h := line_quiet b hb (qs.take n) s (by
    rw [count_rest s b h0 h1, hk]
    simp only [List.replicate_zero, List.nil_append]
    apply no_run_of_agreeing
    intro x hx
    obtain ⟨q, hq, rfl⟩ := List.mem_map.1 hx
    exact hqs q (List.mem_of_mem_take hq))
  rw [hk] at h
  exact h

/-- C19 (the debounce window is 4 ticks and a transition is reported once): for
a line `b` with its counters at rest, if the raw sample differs from the
debounced level on 4 consecutive ticks, bit `b` of `key_state` and of
`key_press` is unchanged after the 1st, 2nd and 3rd tick; after the 4th tick
bit `b` of `key_state` is flipped, the counters are at rest again and bit `b` of
`key_press` is set exactly when the flip is released-to-pressed (or was pending
before).  If the input then stays at the new level, `key_state` does not change
again and, once `get_key_press` has cleared the pending bit, it stays clear. -/
theorem debounce_window (s : State) (b : Nat) (hb : b < 8)
    (h0 : s.ct0.testBit b = true) (h1 : s.ct1.testBit b = true)
    (prs : List Nat)
    (hprs : prs.length = 4 ∧
      ∀ p ∈ prs, differs (s.key_state.testBit b) (p.testBit b) = true)
    (qs : List Nat)
    (hqs : ∀ q ∈ qs, differs (!s.key_state.testBit b) (q.testBit b) = false)
    (m : Nat) (hm : m.testBit b = true) :
    (∀ n, n < 4 →
      (ticks s (prs.take n)).key_state.testBit b = s.key_state.testBit b ∧
      (ticks s (prs.take n)).key_press.testBit b = s.key_press.testBit b) ∧
    (ticks s prs).key_state.testBit b = (!s.key_state.testBit b) ∧
    (ticks s prs).ct0.testBit b = true ∧
    (ticks s prs).ct1.testBit b = true ∧
    (ticks s prs).key_press.testBit b
      = (s.key_press.testBit b || !s.key_state.testBit b) ∧
    (∀ n,
      (ticks (ticks s prs) (qs.take n)).key_state.testBit b = (!s.key_state.testBit b) ∧
      (ticks (ticks s prs) (qs.take n)).key_press.testBit b
        = (ticks s prs).key_press.testBit b) ∧
    (∀ n,
      (ticks (get_key_press (ticks s prs) m).1 (qs.take n)).key_state.testBit b
        = (!s.key_state.testBit b) ∧
      (ticks (get_key_press (ticks s prs) m).1 (qs.take n)).key_press.testBit b = false) := by
  have hmap : prs.map (fun p => p.testBit b) = List.replicate 4 (s.key_state.testBit b) :=
    map_testBit_const prs b 4 _ ⟨hprs.1, fun p hp => differs_true _ _ (hprs.2 p hp)⟩
  have hline : lineOf s b
      = { ks := s.key_state.testBit b, kp := s.key_press.testBit b, c0 := true, c1 := true } :=
    lineOf_eq s b _ _ true true rfl rfl h0 h1
  have l4 : lineOf (ticks s prs) b
      = { ks := !s.key_state.testBit b,
          kp := s.key_press.testBit b || !s.key_state.testBit b, c0 := true, c1 := true } := by
    rw [lineOf_ticks b hb prs s, hmap, hline]
    exact line_window _ _
  have k4 : (ticks s prs).key_state.testBit b = (!s.key_state.testBit b) := congrArg Line.ks l4
  have p4 : (ticks s prs).key_press.testBit b
      = (s.key_press.testBit b || !s.key_state.testBit b) := congrArg Line.kp l4
  have c4 : (ticks s prs).ct0.testBit b = true := congrArg Line.c0 l4
  have d4 : (ticks s prs).ct1.testBit b = true := congrArg Line.c1 l4
  refine ⟨?_, k4, c4, d4, p4, ?_, ?_⟩
  · intro n hn
    have hl := lineOf_ticks b hb (prs.take n) s
    rw [List.map_take, hmap, List.take_replicate, Nat.min_eq_left (Nat.le_of_lt hn), hline] at hl
    obtain ⟨e1, e2⟩ := line_window_before (s.key_state.testBit b) (s.key_press.testBit b) n hn
    rw [← hl] at e1 e2
    exact ⟨e1, e2⟩
  · intro n
    exact steady_after (ticks s prs) b hb _ k4 c4 d4 qs hqs n
  · intro n
    have hp : (get_key_press (ticks s prs) m).1.key_press.testBit b = false := by
      simp only [get_key_press, Nat.testBit_xor, Nat.testBit_and, hm, Bool.true_and,
        Bool.xor_self]
    have h := steady_after (get_key_press (ticks s prs) m).1 b hb _ k4 c4 d4 qs hqs n
    rw [hp] at h
    exact h

/-- Witness of `debounce_window`: from boot with the button released, four
"pressed" samples, then three more, with the mask of `KEY0`. -/
theorem debounce_window_witness :
    (ticks (boot 0x10) ([0, 0, 0, 0].take 3)).key_state.testBit 4
      = (boot 0x10).key_state.testBit 4 ∧
    (ticks (boot 0x10) [0, 0, 0, 0]).key_state.testBit 4 = (!(boot 0x10).key_state.testBit 4) ∧
    (ticks (get_key_press (ticks (boot 0x10) [0, 0, 0, 0]) 0x10).1
      ([0, 0, 0].take 3)).key_press.testBit 4 = false :=
  have h := debounce_window (boot 0x10) 4 (by decide) (by decide) (by decide)
    [0, 0, 0, 0] (by decide) [0, 0, 0] (by decide) 0x10 (by decide)
  ⟨(h.1 3 (by decide)).1, h.2.1, (h.2.2.2.2.2.2 3).2⟩

/-- C20, as stated, fails: on a sample that agrees with the debounced state the
code leaves `ct1 = 0xFF` where the formula `changed XOR (ct1 AND changed)` gives
0, and after two "pressed" samples from boot the formulas of the specification
have accepted the press while the code has not. -/
theorem tick_ne_specTick :
    (TIMER0_OVF_vect (boot 0x10) 0x10).ct1 = 0xFF ∧
    (specTick (boot 0x10) 0x10).ct1 = 0 ∧
    (TIMER0_OVF_vect (boot 0x10) 0x10).ct0 = (specTick (boot 0x10) 0x10).ct0 ∧
    ([0, 0].foldl TIMER0_OVF_vect (boot 0x10)).key_state.testBit KEY0 = false ∧
    ([0, 0].foldl specTick (boot 0x10)).key_state.testBit KEY0 = true := by
  decide

/-- C20 (amended): for every 8-bit `key_state` and every raw pin value, one tick
computes `changed = key_state XOR NOT raw`, `ct0 = NOT (ct0 AND changed)` and
`ct1 = (new ct0) XOR (ct1 AND changed)`, flips `key_state` in the bits of
`changed AND ct0 AND ct1` and ORs into `key_press` those of them whose new
`key_state` bit is 1: the code and these formulas give the same `ct0`, `ct1`,
`key_state` and `key_press`. -/
theorem tick_eq_amendedTick (s : State) (raw : Nat) (hk : s.key_state < 256) :
    TIMER0_OVF_vect s raw = amendedTick s raw ∧
    (TIMER0_OVF_vect s raw).ct0 = not8 (s.ct0 &&& (s.key_state ^^^ not8 raw)) ∧
    (TIMER0_OVF_vect s raw).ct1
      = (TIMER0_OVF_vect s raw).ct0 ^^^ (s.ct1 &&& (s.key_state ^^^ not8 raw)) := by
  have hlt : s.key_state ^^^ not8 raw < 2 ^ 8 :=
    Nat.xor_lt_two_pow (by simpa using hk) (by simpa using not8_lt raw)
  have hmod : (s.key_state ^^^ not8 raw) % 256 = s.key_state ^^^ not8 raw :=
    Nat.mod_eq_of_lt (by simpa using hlt)
  refine ⟨?_, ?_, ?_⟩
  · simp only [TIMER0_OVF_vect, amendedTick, hmod, Nat.land_assoc]
  · simp only [TIMER0_OVF_vect, hmod]
  · simp only [TIMER0_OVF_vect, hmod]

/-- Witness of `tick_eq_amendedTick`: the first "pressed" sample after boot. -/
theorem tick_eq_amendedTick_witness :
    TIMER0_OVF_vect (boot 0x10) 0x00 = amendedTick (boot 0x10) 0x00 :=
  (tick_eq_amendedTick (boot 0x10) 0x00 (by decide)).1

end OneKey
